import Mathlib

/-!
# Verification of the Excel Data Sync Service (schema-driven sync & cascade engine)

Shallow embedding of `excel-data-sync` (the `syncExcelData` module): record
transformation, batched embed/upsert, knowledge-graph edge derivation, FK
target collection and one-hop cascade.  JavaScript runtime values appearing in
records are embedded as the inductive `Value`; JavaScript objects are embedded
as insertion-ordered association lists with unique keys; the external
collaborators (schema registry, embedding service, vector store, graph store,
index service) are embedded as a pure environment `SyncEnv`, and each
collaborator invocation is logged as an `Event` in a writer-style trace so
that frame properties (what the engine did and did not call) are provable.

Embedding conventions, stated once:
* JavaScript `undefined` for an optional schema-field attribute is collapsed
  into the falsy sentinel of the attribute type (`0` for numeric ids, `""` for
  strings), because every read of these attributes in the source goes through
  a JavaScript truthiness test (`||`, `&&`, `if (x)`) under which `undefined`
  and the sentinel behave identically.
* Embedding vectors are opaque tokens (`Int`): the engine only counts them and
  forwards them to the store, never inspects them.
* Wall-clock fields (`duration_ms`, the timestamp content) are not modelled;
  the timestamp string comes from the environment (`SyncEnv.now`).
-/

/-- A JavaScript runtime value as it can occur in a loaded Excel record:
`null`, a boolean, a number (integral), a string, a two-element `[id, label]`
array, or a pre-expanded nested object carrying an `id` and an optional
label-like property. -/
inductive Value where
  | vNull : Value
  | vBool : Bool → Value
  | vInt : Int → Value
  | vStr : String → Value
  | vPair : Int → String → Value
  | vObj : Int → Option String → Value
deriving DecidableEq

/-- A raw record: a JavaScript object, i.e. an insertion-ordered association
list from field names to values. -/
abbrev Rec := List (String × Value)

/-- Field lookup on a record (`record[key]`); `none` models `undefined`. -/
def lookupVal : Rec → String → Option Value
  | [], _ => none
  | (k, v) :: rest, key => if k = key then some v else lookupVal rest key

/-- JavaScript truthiness of `record[key]` (used by `if (!recordId)`):
`undefined`, `null`, `0`, `""` and `false` are falsy. -/
def isFalsy : Option Value → Bool
  | none => true
  | some .vNull => true
  | some (.vBool b) => !b
  | some (.vInt n) => n == 0
  | some (.vStr s) => s == ""
  | some (.vPair _ _) => false
  | some (.vObj _ _) => false

/-- The `value === null || value === undefined || value === ''` test used to
skip a field when building the semantic text. -/
def isNullish : Option Value → Bool
  | none => true
  | some .vNull => true
  | some (.vStr s) => s == ""
  | some _ => false

/-- The `value !== null && value !== undefined` test used to keep a field in
the payload (the empty string is kept there). -/
def isNullOrUndefined : Value → Bool
  | .vNull => true
  | _ => false

/-- JavaScript string coercion `String(value)` for the embedded values. -/
def valueToString : Value → String
  | .vNull => "null"
  | .vBool b => if b then "true" else "false"
  | .vInt n => toString n
  | .vStr s => s
  | .vPair n s => toString n ++ "," ++ s
  | .vObj _ _ => "[object Object]"

/-- A schema field as returned by the schema registry.  `field_id = 0`,
`field_label = ""`, `fk_location_model = ""` and `fk_location_model_id = 0`
are the falsy sentinels standing for an absent attribute. -/
structure SchemaField where
  field_id : Int
  field_name : String
  field_label : String
  field_type : String
  fk_location_model : String
  fk_location_model_id : Int
deriving DecidableEq

/-- Result of schema-driven FK extraction: the source encoding that matched,
the target id and the display label it yielded, or `noFk` when the field was
null, unset or unresolvable for that record (not an error). -/
inductive FkResult where
  | scalar : Int → FkResult
  | tuple : Int → String → FkResult
  | expanded : Int → Option String → FkResult
  | noFk : FkResult
deriving DecidableEq

/-- The extracted FK target id, if any. -/
def FkResult.fkId : FkResult → Option Int
  | .scalar n => some n
  | .tuple n _ => some n
  | .expanded n _ => some n
  | .noFk => none

/-- The extracted display label, if any (scalar encodings carry none). -/
def FkResult.displayName : FkResult → Option String
  | .scalar _ => none
  | .tuple _ s => some s
  | .expanded _ l => l
  | .noFk => none

/-- Modelled from the spec: the repository imports `extractFkValueBySchema`
from `utils/fk-value-extractor`, which is not among the provided sources.
Per spec section 4.2 the field is read under its exact name and then under a
single-leading-space variant (a spreadsheet-ingestion artifact). -/
def lookupFkField (record : Rec) (fieldName : String) : Option Value :=
  match lookupVal record fieldName with
  | some v => some v
  | none => lookupVal record (" " ++ fieldName)

/-- Decimal digit value of a character, if it is a digit. -/
def digitVal? (c : Char) : Option Nat :=
  if c.isDigit then some (c.toNat - 48) else none

/-- Parse a non-empty all-digit character list into a number. -/
def digitsToNatAux : List Char → Nat → Option Nat
  | [], acc => some acc
  | c :: cs, acc =>
      match digitVal? c with
      | some d => digitsToNatAux cs (acc * 10 + d)
      | none => none

/-- Whether a string is a decimal integer numeral, and its value (the
`numeric-string` test of spec section 4.2, embedded structurally). -/
def strToInt? (s : String) : Option Int :=
  match s.data with
  | [] => none
  | '-' :: rest =>
      match rest with
      | [] => none
      | cs => (digitsToNatAux cs 0).map (fun n => -(n : Int))
  | cs => (digitsToNatAux cs 0).map (fun n => (n : Int))

/-- Modelled from the spec: `extractFkValueBySchema` from
`utils/fk-value-extractor` is not among the provided sources.  Per spec
section 4.2, resolution order with first match winning: a scalar
number/numeric-string gives `scalar`; a two-element `[id, label]` pair gives
`tuple`; a pre-expanded nested object gives `expanded`; anything else gives
no FK id, which is not an error. -/
def extractFkValueBySchema (record : Rec) (fieldName : String) : FkResult :=
  match lookupFkField record fieldName with
  | some (.vInt n) => .scalar n
  | some (.vStr s) =>
      match strToInt? s with
      | some n => .scalar n
      | none => .noFk
  | some (.vPair n label) => .tuple n label
  | some (.vObj n label) => .expanded n label
  | _ => .noFk

/-- Modelled from the spec: `buildDataUuidV2` from `utils/uuid-v2` is not
among the provided sources.  Per spec section 4.1 it is a pure, total,
deterministic identity derived solely from the `(model_id, record_id)` pair;
the concrete UUID format is opaque to this development.  The record-id
argument is the raw value the source passes through (`record['id'] as
number`), so it is embedded as a `Value`. -/
def buildDataUuidV2 (modelId : Int) (recordId : Value) : String :=
  "v2:" ++ toString modelId ++ ":" ++ valueToString recordId

/-- The label shown for a field: `field.field_label || field.field_name`. -/
def fieldDisplayLabel (field : SchemaField) : String :=
  if field.field_label = "" then field.field_name else field.field_label

/-- The display value computed for one field inside `generateSemanticText`
(the body of the per-field loop after the nullish skip). -/
def semanticDisplayValue (record : Rec) (field : SchemaField) (value : Value) : String :=
  if field.field_type = "many2one" then
    let fkResult := extractFkValueBySchema record field.field_name
    match fkResult.fkId with
    | some n =>
        match fkResult.displayName with
        | some d => if d ≠ "" then d ++ " (id: " ++ toString n ++ ")"
                    else "id: " ++ toString n
        | none => "id: " ++ toString n
    | none => valueToString value
  else valueToString value

/-- The `record ${recordId}` fragment (`record['id'] as number`,
interpolated; a missing id renders as `undefined`). -/
def recordIdText (record : Rec) : String :=
  match lookupVal record "id" with
  | some v => valueToString v
  | none => "undefined"

/-- `generateSemanticText`: human-readable text for vector embedding.
Format: `In model {model}, record {id}, {label} - {value}, ...` with fields
in schema order, skipping the `id` field and null/undefined/empty values. -/
def generateSemanticText (record : Rec) (modelName : String)
    (schemaFields : List SchemaField) : String :=
  let fieldParts := schemaFields.filterMap (fun field =>
    if field.field_name = "id" then none
    else
      match lookupVal record field.field_name with
      | none => none
      | some value =>
          if isNullish (some value) then none
          else some (fieldDisplayLabel field ++ " - " ++
                     semanticDisplayValue record field value))
  String.intercalate ", "
    (["In model " ++ modelName, "record " ++ recordIdText record] ++ fieldParts)

/-- A transformed record ready for embedding (`TransformedRecord` in the
source).  `record_id` is the raw value of the `id` field, which the source
passes through with only a type cast (`record['id'] as number`). -/
structure TransformedRecord where
  record_id : Value
  model_name : String
  model_id : Int
  vector_text : String
  payload : List (String × Value)
deriving DecidableEq

/-- JavaScript object assignment `obj[key] = v`: replaces the value in place
when the key exists (keeping its position), appends otherwise. -/
def setKey (l : List (String × Value)) (key : String) (v : Value) :
    List (String × Value) :=
  if l.any (fun kv => kv.1 == key) then
    l.map (fun kv => if kv.1 == key then (key, v) else kv)
  else l ++ [(key, v)]

/-- The payload before FK injection: all record fields whose value is neither
null nor undefined (the empty string is kept). -/
def basePayload (record : Rec) : List (String × Value) :=
  record.filter (fun kv => !isNullOrUndefined kv.2)

/-- The FK-injection loop of `transformRecords`: for every many2one field
with a truthy `fk_location_model_id`, when an FK id resolves, store the
derived target identity under `<field>_qdrant`, and, for the scalar source
encoding, the normalized id under `<field>_id`. -/
def injectFkPayload (record : Rec) (schemaFields : List SchemaField)
    (payload0 : List (String × Value)) : List (String × Value) :=
  schemaFields.foldl (fun payload field =>
    if field.field_type == "many2one" && field.fk_location_model_id != (0 : Int) then
      let fkResult := extractFkValueBySchema record field.field_name
      match fkResult.fkId with
      | some fkId =>
          let p1 := setKey payload (field.field_name ++ "_qdrant")
            (.vStr (buildDataUuidV2 field.fk_location_model_id (.vInt fkId)))
          match fkResult with
          | .scalar _ => setKey p1 (field.field_name ++ "_id") (.vInt fkId)
          | _ => p1
      | none => payload
    else payload) payload0

/-- Transformation of one record (the loop body of `transformRecords` after
the falsy-id guard). -/
def transformOneRecord (record : Rec) (modelName : String) (modelId : Int)
    (schemaFields : List SchemaField) : TransformedRecord :=
  { record_id := (lookupVal record "id").getD .vNull
    model_name := modelName
    model_id := modelId
    vector_text := generateSemanticText record modelName schemaFields
    payload := injectFkPayload record schemaFields (basePayload record) }

/-- The pure part of `transformRecords` under a known non-empty schema:
records with a missing or falsy `id` are skipped, the rest are transformed
in input order. -/
def transformRecordsPure (records : List Rec) (modelName : String)
    (modelId : Int) (schemaFields : List SchemaField) :
    List TransformedRecord :=
  records.filterMap (fun record =>
    if isFalsy (lookupVal record "id") then none
    else some (transformOneRecord record modelName modelId schemaFields))

/-- A relationship edge as passed to the graph store (`upsertRelationship`
argument object). -/
structure Edge where
  source_model : String
  source_model_id : Int
  field_id : Int
  field_name : String
  field_label : String
  field_type : String
  target_model : String
  target_model_id : Int
  edge_count : Nat
  unique_targets : Nat
  cascade_source : String
deriving DecidableEq

/-- A storage point as passed to the vector store. -/
structure Point where
  id : String
  vector : Int
  payload : List (String × Value)
deriving DecidableEq

/-- One observable operation of the engine: entry into a (root or cascaded)
sync, a data-file read, a transform run, an embedding-service call, a
vector-store write, a graph-edge upsert attempt, or an index-service call. -/
inductive Event where
  | syncStart : String → Event
  | excelRead : String → Event
  | transformRun : String → Event
  | embedRun : List String → Event
  | upsertRun : List Point → Event
  | graphUpsert : Edge → Event
  | indexRun : String → Event
deriving DecidableEq

/-- Writer-style computation: a fallible result paired with the list of
operations performed (the trace survives a thrown error, as the operations
did happen). -/
def TraceM (α : Type) : Type := Except String α × List Event

instance : Monad TraceM where
  pure a := (Except.ok a, [])
  bind x f :=
    match x with
    | (.error e, t) => (.error e, t)
    | (.ok a, t) =>
        match f a with
        | (r, t2) => (r, t ++ t2)

/-- The result component of a computation. -/
def TraceM.result (x : TraceM α) : Except String α := x.1

/-- The performed-operations component of a computation. -/
def TraceM.trace (x : TraceM α) : List Event := x.2

/-- Log one operation. -/
def emitEvent (e : Event) : TraceM Unit := (Except.ok (), [e])

/-- `throw new Error(msg)`. -/
def throwMsg (msg : String) : TraceM α := (Except.error msg, [])

/-- `try { x } catch (e) { handler(e) }`. -/
def tryCatchM (x : TraceM α) (handler : String → TraceM α) : TraceM α :=
  match x with
  | (.ok a, t) => (.ok a, t)
  | (.error e, t) =>
      match handler e with
      | (r, t2) => (r, t ++ t2)

/-- The external collaborators as pure deterministic behaviors: schema
registry, Excel reader, embedding service, vector store, graph store, index
service, and the timestamp source. -/
structure SyncEnv where
  modelExists : String → Bool
  getModelId : String → Int
  readExcel : String → Except String (List Rec)
  getModelFields : String → List SchemaField
  getFkFields : String → List SchemaField
  embedBatch : List String → Except String (List Int)
  upsertPoints : List Point → Except String Unit
  upsertRelationship : Edge → Except String Unit
  ensureModelIndexes : String → List SchemaField → Nat
  now : String

/-- `readExcelData`: traced read of the data file; a missing or unreadable
file surfaces as a thrown error. -/
def readExcelDataM (env : SyncEnv) (filePath : String) : TraceM (List Rec) := do
  emitEvent (.excelRead filePath)
  match env.readExcel filePath with
  | .ok records => pure records
  | .error e => throwMsg e

/-- Traced call to the embedding service (`embedBatch(texts, 'document')`). -/
def embedBatchCall (env : SyncEnv) (texts : List String) : TraceM (List Int) := do
  emitEvent (.embedRun texts)
  match env.embedBatch texts with
  | .ok vectors => pure vectors
  | .error e => throwMsg e

/-- Traced call to the vector store (`upsertToUnifiedCollection`). -/
def upsertPointsCall (env : SyncEnv) (points : List Point) : TraceM Unit := do
  emitEvent (.upsertRun points)
  match env.upsertPoints points with
  | .ok _ => pure ()
  | .error e => throwMsg e

/-- Traced call to the graph store (`upsertRelationship`). -/
def upsertRelationshipCall (env : SyncEnv) (edge : Edge) : TraceM Unit := do
  emitEvent (.graphUpsert edge)
  match env.upsertRelationship edge with
  | .ok _ => pure ()
  | .error e => throwMsg e

/-- Modelled from the spec: `ensureModelIndexes` from the index service is
not among the provided sources; per spec section 6 its failures are
non-fatal, so the collaborator returns a created-count and never throws. -/
def ensureModelIndexesCall (env : SyncEnv) (modelName : String)
    (schemaFields : List SchemaField) : TraceM Nat := do
  emitEvent (.indexRun modelName)
  pure (env.ensureModelIndexes modelName schemaFields)

/-- `transformRecords`: fails fast when the schema registry yields no fields
for the model, otherwise transforms per `transformRecordsPure`. -/
def transformRecords (env : SyncEnv) (records : List Rec) (modelName : String)
    (modelId : Int) : TraceM (List TransformedRecord) := do
  emitEvent (.transformRun modelName)
  let schemaFields := env.getModelFields modelName
  if schemaFields.isEmpty then
    throwMsg ("No schema fields found for model: " ++ modelName)
  else
    pure (transformRecordsPure records modelName modelId schemaFields)

/-- Insertion into an insertion-ordered set of ids (`Set.add`). -/
def insertNewId (ids : List Int) (n : Int) : List Int :=
  if n ∈ ids then ids else ids ++ [n]

/-- The distinct FK ids a field resolves across all records, in first-seen
order (the `new Set(); for (record of records) ... add(fkId)` pattern). -/
def collectFkIds (records : List Rec) (fieldName : String) : List Int :=
  records.foldl (fun ids record =>
    match (extractFkValueBySchema record fieldName).fkId with
    | some n => insertNewId ids n
    | none => ids) []

/-- The filter selecting graph-relevant fields: many2one with both a truthy
target model name and a truthy target model id. -/
def isGraphFkField (f : SchemaField) : Bool :=
  f.field_type == "many2one" && f.fk_location_model != "" &&
    f.fk_location_model_id != (0 : Int)

/-- The edge object `updateKnowledgeGraph` passes to `upsertRelationship`. -/
def mkRelationshipEdge (modelName : String) (modelId : Int)
    (fkField : SchemaField) (recordCount : Nat) (uniqueTargets : Nat) : Edge :=
  { source_model := modelName
    source_model_id := modelId
    field_id := fkField.field_id
    field_name := fkField.field_name
    field_label := fkField.field_label
    field_type := fkField.field_type
    target_model := fkField.fk_location_model
    target_model_id := fkField.fk_location_model_id
    edge_count := recordCount
    unique_targets := uniqueTargets
    cascade_source := modelName }

/-- The per-field loop of `updateKnowledgeGraph`, carrying the running
`edgesCreated` counter; an edge-upsert failure is caught per field. -/
def updateKnowledgeGraphLoop (env : SyncEnv) (modelName : String)
    (modelId : Int) (records : List Rec) :
    List SchemaField → Nat → TraceM Nat
  | [], edgesCreated => pure edgesCreated
  | fkField :: rest, edgesCreated => do
      let fkIds := collectFkIds records fkField.field_name
      let edgesCreated2 ←
        if fkIds.length > 0 then
          tryCatchM
            (do upsertRelationshipCall env
                  (mkRelationshipEdge modelName modelId fkField
                    records.length fkIds.length)
                pure (edgesCreated + 1))
            (fun _ => pure edgesCreated)
        else pure edgesCreated
      updateKnowledgeGraphLoop env modelName modelId records rest edgesCreated2

/-- `updateKnowledgeGraph`: one edge-upsert attempt per graph-relevant field
that resolves at least one FK id; returns the number of successful upserts. -/
def updateKnowledgeGraph (env : SyncEnv) (modelName : String) (modelId : Int)
    (records : List Rec) (schemaFields : List SchemaField) : TraceM Nat :=
  updateKnowledgeGraphLoop env modelName modelId records
    (schemaFields.filter isGraphFkField) 0

/-- JavaScript `Map.set` on an insertion-ordered association list. -/
def setAssocIds (m : List (String × List Int)) (key : String)
    (ids : List Int) : List (String × List Int) :=
  if m.any (fun kv => kv.1 == key) then
    m.map (fun kv => if kv.1 == key then (key, ids) else kv)
  else m ++ [(key, ids)]

/-- JavaScript `Map.get(key) || new Set()`. -/
def getAssocIds (m : List (String × List Int)) (key : String) : List Int :=
  match m.find? (fun kv => kv.1 == key) with
  | some kv => kv.2
  | none => []

/-- `extractFkTargets`: per FK field of the model, union the resolved target
ids into the per-target-model map (fields with a falsy target model name, or
resolving no id at all, contribute nothing). -/
def extractFkTargets (env : SyncEnv) (records : List Rec)
    (modelName : String) : List (String × List Int) :=
  (env.getFkFields modelName).foldl (fun fkTargets fkField =>
    if fkField.fk_location_model == "" then fkTargets
    else
      let targetIds := collectFkIds records fkField.field_name
      if targetIds.length > 0 then
        setAssocIds fkTargets fkField.fk_location_model
          (targetIds.foldl insertNewId
            (getAssocIds fkTargets fkField.fk_location_model))
      else fkTargets) []

/-- `EMBEDDING_BATCH_SIZE`. -/
def EMBEDDING_BATCH_SIZE : Nat := 50

/-- One storage point: V2 identity, the embedding vector, and the payload
merging the system fields with the transformed payload (the transformed
payload is spread last). -/
def mkDataPoint (now : String) (record : TransformedRecord)
    (embedding : Int) : Point :=
  let pointId := buildDataUuidV2 record.model_id record.record_id
  { id := pointId
    vector := embedding
    payload :=
      record.payload.foldl (fun acc kv => setKey acc kv.1 kv.2)
        [("point_id", .vStr pointId),
         ("point_type", .vStr "data"),
         ("record_id", record.record_id),
         ("model_name", .vStr record.model_name),
         ("model_id", .vInt record.model_id),
         ("vector_text", .vStr record.vector_text),
         ("sync_timestamp", .vStr now)] }

/-- The body of the per-batch `try` block: embed the batch texts, check the
returned count, build the points and upsert them as one write. -/
def processBatch (env : SyncEnv) (batch : List TransformedRecord) :
    TraceM Unit := do
  let texts := batch.map (fun r => r.vector_text)
  let embeddings ← embedBatchCall env texts
  if embeddings.length ≠ batch.length then
    throwMsg ("Embedding count mismatch: " ++ toString embeddings.length ++
      " vs " ++ toString batch.length)
  else
    upsertPointsCall env
      ((batch.zip embeddings).map (fun p => mkDataPoint env.now p.1 p.2))

/-- Running counters of the batch loop. -/
structure BatchAcc where
  synced : Nat
  failed : Nat
  errors : List String
deriving DecidableEq

/-- The error string recorded for a failed batch. -/
def mkBatchErrorMsg (batchNum : Nat) (e : String) : String :=
  "Batch " ++ toString batchNum ++ " failed: " ++ e

/-- One iteration of the batch loop: on success the batch size is added to
`synced`; a caught failure adds the batch size to `failed` and appends one
error string tagged with the batch number. -/
def runOneBatch (env : SyncEnv) (batch : List TransformedRecord)
    (batchNum : Nat) (acc : BatchAcc) : TraceM BatchAcc :=
  tryCatchM
    (do processBatch env batch
        pure { acc with synced := acc.synced + batch.length })
    (fun e => pure { acc with failed := acc.failed + batch.length,
                              errors := acc.errors ++ [mkBatchErrorMsg batchNum e] })

/-- The batch loop: contiguous slices of `EMBEDDING_BATCH_SIZE` records,
batch numbers counted from 1, continuing unconditionally after a failure. -/
def batchLoopGo (env : SyncEnv) :
    List TransformedRecord → Nat → BatchAcc → TraceM BatchAcc
  | [], _, acc => pure acc
  | x :: xs, batchNum, acc => do
      let acc2 ← runOneBatch env ((x :: xs).take EMBEDDING_BATCH_SIZE) batchNum acc
      batchLoopGo env ((x :: xs).drop EMBEDDING_BATCH_SIZE) (batchNum + 1) acc2
termination_by l => l.length
decreasing_by simp [EMBEDDING_BATCH_SIZE]; omega

/-- The whole embed-and-upload phase of `syncExcelData`. -/
def runBatches (env : SyncEnv) (transformed : List TransformedRecord) :
    TraceM BatchAcc :=
  batchLoopGo env transformed 1 ⟨0, 0, []⟩

/-- Options of `syncExcelData` (`ExcelDataSyncOptions`). -/
structure SyncOptions where
  filePath : Option String := none
  skipCascade : Bool := false
  dryRun : Bool := false
  force : Bool := false
deriving DecidableEq

/-- The result of one sync call (`ExcelDataSyncResult`); `duration_ms` is a
wall-clock field and is not modelled. -/
structure SyncResult where
  success : Bool
  model_name : String
  model_id : Int
  file_path : String
  records_read : Nat
  records_synced : Nat
  records_failed : Nat
  errors : List String
  cascaded_models : Option (List (String × Nat)) := none
deriving DecidableEq

/-- `DATA_DIR` (the `DATA_DIR` environment variable defaulting to
`samples`; the default is used here). -/
def DATA_DIR : String := "samples"

/-- `getDefaultDataFilePath`. -/
def getDefaultDataFilePath (modelName : String) : String :=
  DATA_DIR ++ "/SAMPLE_" ++ modelName ++ "_data.xlsx"

/-- A failed `SyncResult` with zero progress (shape of the three
fatal-to-call early returns). -/
def fatalSyncResult (modelName : String) (modelId : Int) (filePath : String)
    (errorMsg : String) : SyncResult :=
  { success := false
    model_name := modelName
    model_id := modelId
    file_path := filePath
    records_read := 0
    records_synced := 0
    records_failed := 0
    errors := [errorMsg] }

/-- The knowledge-graph and index step of `syncExcelData` (lines guarded by
`if (schemaFields && schemaFields.length > 0)` in the source): both results
are used only for logging. -/
def graphIndexPhase (env : SyncEnv) (modelName : String) (modelId : Int)
    (records : List Rec) : TraceM Unit :=
  if (env.getModelFields modelName).length > 0 then do
    let _edges ← updateKnowledgeGraph env modelName modelId records
      (env.getModelFields modelName)
    let _created ← ensureModelIndexesCall env modelName
      (env.getModelFields modelName)
    pure ()
  else pure ()

mutual

/-- `syncExcelData`: the full sync of one model, faithful to the source
control flow: fatal-to-call early returns, the empty-file and dry-run
short-circuits, transform (whose error propagates uncaught), the batch
loop, knowledge-graph update and index creation, and the FK cascade with
`skipCascade: true` forced on every nested call. -/
def syncExcelData (env : SyncEnv) (modelName : String)
    (options : SyncOptions) : TraceM SyncResult := do
  emitEvent (.syncStart modelName)
  let dataFilePath := options.filePath.getD (getDefaultDataFilePath modelName)
  if !env.modelExists modelName then
    pure (fatalSyncResult modelName 0 dataFilePath
      ("Model " ++ modelName ++ " not found in schema. Run schema sync first."))
  else
    let modelId := env.getModelId modelName
    if modelId = 0 then
      pure (fatalSyncResult modelName 0 dataFilePath
        ("Could not get model ID for: " ++ modelName))
    else do
      let readOutcome ← tryCatchM
        (do let records ← readExcelDataM env dataFilePath
            pure (Except.ok records))
        (fun e => pure (Except.error e))
      match readOutcome with
      | .error errorMsg =>
          pure (fatalSyncResult modelName modelId dataFilePath errorMsg)
      | .ok records =>
          if records.length = 0 then
            pure { success := true, model_name := modelName,
                   model_id := modelId, file_path := dataFilePath,
                   records_read := 0, records_synced := 0,
                   records_failed := 0, errors := [] }
          else if options.dryRun then
            pure { success := true, model_name := modelName,
                   model_id := modelId, file_path := dataFilePath,
                   records_read := records.length, records_synced := 0,
                   records_failed := 0, errors := [] }
          else
            syncMainPhase env modelName options modelId dataFilePath records
termination_by ((if options.skipCascade then 2 else 5), 0)
decreasing_by
  by_cases h : options.skipCascade
  · simp [h]
    exact Prod.Lex.left _ _ (by omega)
  · simp [h]
    exact Prod.Lex.left _ _ (by omega)

/-- The main phase of `syncExcelData` (from the transform on): transform
(errors propagate uncaught), batch loop, knowledge-graph and index updates,
FK cascade unless suppressed, then the assembled result. -/
def syncMainPhase (env : SyncEnv) (modelName : String)
    (options : SyncOptions) (modelId : Int) (dataFilePath : String)
    (records : List Rec) : TraceM SyncResult := do
  let transformed ← transformRecords env records modelName modelId
  let batchAcc ← runBatches env transformed
  let _graphAndIndexes ← graphIndexPhase env modelName modelId records
  let cascadedModels ← cascadePhase env modelName options records
  pure { success := batchAcc.errors.length == 0
         model_name := modelName
         model_id := modelId
         file_path := dataFilePath
         records_read := records.length
         records_synced := batchAcc.synced
         records_failed := batchAcc.failed
         errors := batchAcc.errors
         cascaded_models :=
           if cascadedModels.length > 0 then some cascadedModels
           else none }
termination_by ((if options.skipCascade then 1 else 4), 0)
decreasing_by
  by_cases h2 : options.skipCascade
  · simp [h2]
    exact Prod.Lex.left _ _ (by omega)
  · simp [h2]
    exact Prod.Lex.left _ _ (by omega)

/-- The FK-cascade step of `syncExcelData`: skipped when `skipCascade` is
set; otherwise one nested sync per discovered target model. -/
def cascadePhase (env : SyncEnv) (modelName : String)
    (options : SyncOptions) (records : List Rec) :
    TraceM (List (String × Nat)) :=
  if h : options.skipCascade then
    pure ([] : List (String × Nat))
  else
    let fkTargets := extractFkTargets env records modelName
    if fkTargets.length > 0 then
      runCascades env options.dryRun options.force fkTargets
    else pure []
termination_by ((if options.skipCascade then 0 else 3), 0)
decreasing_by simp [h]; exact Prod.Lex.left _ _ (by omega)

/-- The cascade loop of `syncExcelData`: one nested sync per target model,
in discovery order, each with `skipCascade: true`; a nested call that throws
is caught and logged, a nested call returning failure is excluded from
`cascaded_models` — neither affects the root call. -/
def runCascades (env : SyncEnv) (dryRun : Bool) (force : Bool) :
    List (String × List Int) → TraceM (List (String × Nat))
  | [] => pure []
  | (targetModel, _targetIds) :: rest => do
      let entry ← tryCatchM
        (do let cascadeResult ← syncExcelData env targetModel
              { filePath := none, skipCascade := true,
                dryRun := dryRun, force := force }
            if cascadeResult.success then
              pure [(targetModel, cascadeResult.records_synced)]
            else pure ([] : List (String × Nat)))
        (fun _ => pure [])
      let restEntries ← runCascades env dryRun force rest
      pure (entry ++ restEntries)
termination_by l => (2, l.length + 1)

end

/-- Structural worker for `chunksOf`; the fuel dominates the list length so
the kernel can evaluate it on concrete inputs. -/
def chunksOfGo : Nat → List TransformedRecord → List (List TransformedRecord)
  | _, [] => []
  | 0, _ :: _ => []
  | fuel + 1, x :: xs =>
      ((x :: xs).take EMBEDDING_BATCH_SIZE) ::
        chunksOfGo fuel ((x :: xs).drop EMBEDDING_BATCH_SIZE)

/-- The contiguous batch partition the loop walks: slices of
`EMBEDDING_BATCH_SIZE` in input order. -/
def chunksOf (l : List TransformedRecord) : List (List TransformedRecord) :=
  chunksOfGo l.length l

/-- Whether one batch fails under the environment, and with which message
(embedding-service error, count mismatch, or store-write error). -/
def batchFailure (env : SyncEnv) (batch : List TransformedRecord) :
    Option String :=
  match (processBatch env batch).result with
  | .ok _ => none
  | .error e => some e

/-- Records synced across a chunk list: sum of the sizes of the batches
that do not fail. -/
def chunkSynced (env : SyncEnv) : List (List TransformedRecord) → Nat
  | [] => 0
  | c :: cs =>
      (if (batchFailure env c).isNone then c.length else 0) + chunkSynced env cs

/-- Records failed across a chunk list: sum of the sizes of the batches
that fail. -/
def chunkFailed (env : SyncEnv) : List (List TransformedRecord) → Nat
  | [] => 0
  | c :: cs =>
      (if (batchFailure env c).isSome then c.length else 0) + chunkFailed env cs

/-- Error strings across a chunk list, batch numbers counted from `n`:
exactly one entry per failing batch, tagged with that batch's number. -/
def chunkErrors (env : SyncEnv) : List (List TransformedRecord) → Nat → List String
  | [], _ => []
  | c :: cs, n =>
      (match batchFailure env c with
       | some e => [mkBatchErrorMsg n e]
       | none => []) ++ chunkErrors env cs (n + 1)

/-- The models whose sync was entered, in trace order. -/
def syncStartsOf (t : List Event) : List String :=
  t.filterMap (fun e => match e with | .syncStart m => some m | _ => none)

/-- The edges whose upsert was attempted, in trace order. -/
def graphEdgesOf (t : List Event) : List Edge :=
  t.filterMap (fun e => match e with | .graphUpsert g => some g | _ => none)

/-- Whether an event is a call to the embedding service or to one of the
stores (vector, graph, index) or a transform run — the operations a dry run
and a fatal-to-call return must not perform. -/
def Event.isWorkEvent : Event → Bool
  | .transformRun _ => true
  | .embedRun _ => true
  | .upsertRun _ => true
  | .graphUpsert _ => true
  | .indexRun _ => true
  | _ => false

/-- Whether a graph-store write succeeds under the environment. -/
def edgeUpsertOk (env : SyncEnv) (edge : Edge) : Bool :=
  match env.upsertRelationship edge with
  | .ok _ => true
  | .error _ => false

/-- The edges `updateKnowledgeGraph` attempts for a given (already
filtered) field list: one per field resolving at least one FK id. -/
def ukgAttemptedEdges (modelName : String) (modelId : Int)
    (records : List Rec) (fields : List SchemaField) : List Edge :=
  fields.filterMap (fun f =>
    let fkIds := collectFkIds records f.field_name
    if fkIds.length > 0 then
      some (mkRelationshipEdge modelName modelId f records.length fkIds.length)
    else none)

/-- The number of attempted edges whose upsert succeeds. -/
def ukgSuccessCount (env : SyncEnv) (edges : List Edge) : Nat :=
  (edges.filter (edgeUpsertOk env)).length

/-- The value the last occurrence of `key` in `l` carries, if any. -/
def lastValueOf : List (String × Value) → String → Option Value
  | [], _ => none
  | (k, v) :: rest, key =>
      match lastValueOf rest key with
      | some w => some w
      | none => if k == key then some v else none

/-- The payload keys the batch pipeline fills with system values. -/
def systemPayloadKeys : List String :=
  ["point_id", "point_type", "record_id", "model_name", "model_id",
   "vector_text", "sync_timestamp"]

/-- Written from the amended reading of the spec sentence on relational
rendering: with a resolvable FK id and a non-empty display label the value
renders as `<label> (id: <n>)`; with a resolvable FK id and no (or an
empty) display label it renders as `id: <n>`; with no resolvable FK id it
renders as the JavaScript string coercion of the raw value. -/
def specRelationalRendering (record : Rec) (field : SchemaField)
    (value : Value) : String :=
  match extractFkValueBySchema record field.field_name with
  | .scalar n => "id: " ++ toString n
  | .tuple n label =>
      if label = "" then "id: " ++ toString n
      else label ++ " (id: " ++ toString n ++ ")"
  | .expanded n (some label) =>
      if label = "" then "id: " ++ toString n
      else label ++ " (id: " ++ toString n ++ ")"
  | .expanded n none => "id: " ++ toString n
  | .noFk => valueToString value

/-- Written from the spec sentence on `vector_text` (with the amended
relational rendering): model name, record id, then one segment per non-id
field with a non-null, non-empty value, in schema field order, each segment
being the field label and the formatted value. -/
def specFieldSegment (record : Rec) (field : SchemaField) : Option String :=
  if field.field_name = "id" then none
  else
    match lookupVal record field.field_name with
    | none => none
    | some value =>
        if value = .vNull ∨ value = .vStr "" then none
        else
          some (fieldDisplayLabel field ++ " - " ++
            (if field.field_type = "many2one" then
              specRelationalRendering record field value
             else valueToString value))

/-- The whole `vector_text` per the spec sentence (with the amended
relational rendering). -/
def specVectorText (record : Rec) (modelName : String)
    (fields : List SchemaField) : String :=
  String.intercalate ", "
    (["In model " ++ modelName, "record " ++ recordIdText record] ++
      fields.filterMap (specFieldSegment record))

/-- Schema of test model `A` (FK to `B`). -/
def fieldsA : List SchemaField :=
  [⟨1, "id", "ID", "integer", "", 0⟩,
   ⟨2, "b_id", "B ref", "many2one", "B", 20⟩]

/-- Schema of test model `B` (FK to `C`). -/
def fieldsB : List SchemaField :=
  [⟨3, "id", "ID", "integer", "", 0⟩,
   ⟨4, "c_id", "C ref", "many2one", "C", 30⟩]

/-- Schema of test model `C` (no FK). -/
def fieldsC : List SchemaField :=
  [⟨5, "id", "ID", "integer", "", 0⟩,
   ⟨6, "name", "Name", "char", "", 0⟩]

/-- Data file of test model `A`. -/
def recordsA : List Rec := [[("id", .vInt 1), ("b_id", .vInt 5)]]

/-- Data file of test model `B`. -/
def recordsB : List Rec := [[("id", .vInt 5), ("c_id", .vInt 9)]]

/-- Data file of test model `C`. -/
def recordsC : List Rec := [[("id", .vInt 9), ("name", .vStr "gamma")]]

/-- Data file of test model `E` (whose schema field list is empty). -/
def recordsE : List Rec := [[("id", .vInt 2)]]

/-- A concrete healthy environment with the FK chain `A → B → C` and a
model `E` whose schema yields no fields. -/
def abcEnv : SyncEnv :=
  { modelExists := fun m => m == "A" || m == "B" || m == "C" || m == "E"
    getModelId := fun m =>
      if m == "A" then 10 else if m == "B" then 20
      else if m == "C" then 30 else if m == "E" then 40 else 0
    readExcel := fun p =>
      if p == getDefaultDataFilePath "A" then .ok recordsA
      else if p == getDefaultDataFilePath "B" then .ok recordsB
      else if p == getDefaultDataFilePath "C" then .ok recordsC
      else if p == getDefaultDataFilePath "E" then .ok recordsE
      else .error ("Data file not found: " ++ p)
    getModelFields := fun m =>
      if m == "A" then fieldsA else if m == "B" then fieldsB
      else if m == "C" then fieldsC else []
    getFkFields := fun m =>
      if m == "A" then [⟨2, "b_id", "B ref", "many2one", "B", 20⟩]
      else if m == "B" then [⟨4, "c_id", "C ref", "many2one", "C", 30⟩]
      else []
    embedBatch := fun texts => .ok (texts.map (fun _ => 0))
    upsertPoints := fun _ => .ok ()
    upsertRelationship := fun _ => .ok ()
    ensureModelIndexes := fun _ _ => 0
    now := "2026-01-01T00:00:00Z" }

/-- A minimal transformed record with text `t<i>`. -/
def wRecord (i : Nat) : TransformedRecord :=
  { record_id := .vInt i, model_name := "M", model_id := 1,
    vector_text := "t" ++ toString i, payload := [] }

/-- 120 transformed records `t1 .. t120`. -/
def wBatchRecords : List TransformedRecord :=
  (List.range 120).map (fun i => wRecord (i + 1))

/-- An environment whose embedding service fails exactly on the batch
containing `t51` (i.e. batch 2 of `wBatchRecords`). -/
def wBatchEnv : SyncEnv :=
  { modelExists := fun _ => true
    getModelId := fun _ => 1
    readExcel := fun _ => .ok []
    getModelFields := fun _ => []
    getFkFields := fun _ => []
    embedBatch := fun texts =>
      if texts.contains "t51" then .error "embedding service down"
      else .ok (texts.map (fun _ => 0))
    upsertPoints := fun _ => .ok ()
    upsertRelationship := fun _ => .ok ()
    ensureModelIndexes := fun _ _ => 0
    now := "T" }

/-- A record whose many2one field holds a non-numeric string, so FK
extraction resolves no id. -/
def c6Record : Rec := [("id", .vInt 1), ("partner_id", .vStr "abc")]

/-- The many2one field of `c6Record`. -/
def c6Field : SchemaField := ⟨3, "partner_id", "Partner", "many2one", "partner", 9⟩

/-- Schema for `c6Record`. -/
def c6Fields : List SchemaField := [⟨1, "id", "ID", "integer", "", 0⟩, c6Field]

/-- Input records for the transform fixture: the middle one has no `id`. -/
def c7Records : List Rec :=
  [[("id", .vInt 1), ("name", .vStr "x")],
   [("name", .vStr "noid")],
   [("id", .vInt 2), ("name", .vStr "y")]]

/-- A transformed record whose raw payload collides with the system key
`model_name`. -/
def collidingRecord : TransformedRecord :=
  { record_id := .vInt 1, model_name := "M", model_id := 1,
    vector_text := "text", payload := [("model_name", .vStr "evil")] }

/-- The cascade-independent core of a `SyncResult`: its `success` flag,
`errors` list and the three counters (everything but `cascaded_models` and
the echo fields). -/
def resultCore (r : SyncResult) : Bool × List String × Nat × Nat × Nat :=
  (r.success, r.errors, r.records_read, r.records_synced, r.records_failed)

/-- The result of a dry-run sync of model `A` in `abcEnv`. -/
def c3DryResult : SyncResult :=
  { success := true
    model_name := "A"
    model_id := 10
    file_path := getDefaultDataFilePath "A"
    records_read := 1
    records_synced := 0
    records_failed := 0
    errors := [] }

/-- The result of the cascade-disabled nested sync of model `B` in
`abcEnv`. -/
def c3NestedBResult : SyncResult :=
  { success := true
    model_name := "B"
    model_id := 20
    file_path := getDefaultDataFilePath "B"
    records_read := 1
    records_synced := 1
    records_failed := 0
    errors := [] }

/-- Decidable equality for `Except` (used to evaluate witnesses). -/
instance {ε α : Type} [DecidableEq ε] [DecidableEq α] :
    DecidableEq (Except ε α) := fun a b =>
  match a, b with
  | .ok x, .ok y =>
      if h : x = y then isTrue (by rw [h])
      else isFalse (fun hc => by cases hc; exact h rfl)
  | .error x, .error y =>
      if h : x = y then isTrue (by rw [h])
      else isFalse (fun hc => by cases hc; exact h rfl)
  | .ok _, .error _ => isFalse (fun hc => by cases hc)
  | .error _, .ok _ => isFalse (fun hc => by cases hc)

-- ## Theorems

theorem TraceM.result_pure {α : Type} (a : α) :
    (pure a : TraceM α).result = .ok a := rfl

theorem TraceM.trace_pure {α : Type} (a : α) :
    (pure a : TraceM α).trace = [] := rfl

theorem TraceM.result_bind {α β : Type} (x : TraceM α) (f : α → TraceM β) :
    (x >>= f).result =
      match x.result with
      | .ok a => (f a).result
      | .error e => .error e := by
  rcases x with ⟨r, t⟩
  cases r <;> rfl

theorem TraceM.trace_bind {α β : Type} (x : TraceM α) (f : α → TraceM β) :
    (x >>= f).trace = x.trace ++
      (match x.result with
       | .ok a => (f a).trace
       | .error _ => []) := by
  rcases x with ⟨r, t⟩
  cases r
  · exact (List.append_nil t).symm
  · rfl

theorem TraceM.result_tryCatch {α : Type} (x : TraceM α)
    (handler : String → TraceM α) :
    (tryCatchM x handler).result =
      match x.result with
      | .ok a => .ok a
      | .error e => (handler e).result := by
  rcases x with ⟨r, t⟩
  cases r <;> rfl

theorem TraceM.trace_tryCatch {α : Type} (x : TraceM α)
    (handler : String → TraceM α) :
    (tryCatchM x handler).trace = x.trace ++
      (match x.result with
       | .ok _ => []
       | .error e => (handler e).trace) := by
  rcases x with ⟨r, t⟩
  cases r
  · rfl
  · exact (List.append_nil t).symm

theorem TraceM.result_emit (e : Event) : (emitEvent e).result = .ok () := rfl

theorem TraceM.trace_emit (e : Event) : (emitEvent e).trace = [e] := rfl

theorem TraceM.result_throw {α : Type} (msg : String) :
    (throwMsg msg : TraceM α).result = .error msg := rfl

theorem TraceM.trace_throw {α : Type} (msg : String) :
    (throwMsg msg : TraceM α).trace = [] := rfl

theorem readExcelDataM_result (env : SyncEnv) (p : String) :
    (readExcelDataM env p).result = env.readExcel p := by
  simp only [readExcelDataM, TraceM.result_bind, TraceM.result_emit]
  cases h : env.readExcel p <;>
    simp [h, TraceM.result_pure, TraceM.result_throw]

theorem readExcelDataM_trace (env : SyncEnv) (p : String) :
    (readExcelDataM env p).trace = [.excelRead p] := by
  simp only [readExcelDataM, TraceM.trace_bind, TraceM.result_emit,
    TraceM.trace_emit]
  cases h : env.readExcel p <;>
    simp [h, TraceM.trace_pure, TraceM.trace_throw]

theorem embedBatchCall_result (env : SyncEnv) (texts : List String) :
    (embedBatchCall env texts).result = env.embedBatch texts := by
  simp only [embedBatchCall, TraceM.result_bind, TraceM.result_emit]
  cases h : env.embedBatch texts <;>
    simp [h, TraceM.result_pure, TraceM.result_throw]

theorem embedBatchCall_trace (env : SyncEnv) (texts : List String) :
    (embedBatchCall env texts).trace = [.embedRun texts] := by
  simp only [embedBatchCall, TraceM.trace_bind, TraceM.result_emit,
    TraceM.trace_emit]
  cases h : env.embedBatch texts <;>
    simp [h, TraceM.trace_pure, TraceM.trace_throw]

theorem upsertPointsCall_result (env : SyncEnv) (points : List Point) :
    (upsertPointsCall env points).result = env.upsertPoints points := by
  simp only [upsertPointsCall, TraceM.result_bind, TraceM.result_emit]
  cases h : env.upsertPoints points <;>
    simp [h, TraceM.result_pure, TraceM.result_throw]

theorem upsertPointsCall_trace (env : SyncEnv) (points : List Point) :
    (upsertPointsCall env points).trace = [.upsertRun points] := by
  simp only [upsertPointsCall, TraceM.trace_bind, TraceM.result_emit,
    TraceM.trace_emit]
  cases h : env.upsertPoints points <;>
    simp [h, TraceM.trace_pure, TraceM.trace_throw]

theorem upsertRelationshipCall_result (env : SyncEnv) (edge : Edge) :
    (upsertRelationshipCall env edge).result = env.upsertRelationship edge := by
  simp only [upsertRelationshipCall, TraceM.result_bind, TraceM.result_emit]
  cases h : env.upsertRelationship edge <;>
    simp [h, TraceM.result_pure, TraceM.result_throw]

theorem upsertRelationshipCall_trace (env : SyncEnv) (edge : Edge) :
    (upsertRelationshipCall env edge).trace = [.graphUpsert edge] := by
  simp only [upsertRelationshipCall, TraceM.trace_bind, TraceM.result_emit,
    TraceM.trace_emit]
  cases h : env.upsertRelationship edge <;>
    simp [h, TraceM.trace_pure, TraceM.trace_throw]

theorem ensureModelIndexesCall_result (env : SyncEnv) (m : String)
    (fields : List SchemaField) :
    (ensureModelIndexesCall env m fields).result =
      .ok (env.ensureModelIndexes m fields) := by
  simp [ensureModelIndexesCall, TraceM.result_bind, TraceM.result_emit,
    TraceM.result_pure]

theorem ensureModelIndexesCall_trace (env : SyncEnv) (m : String)
    (fields : List SchemaField) :
    (ensureModelIndexesCall env m fields).trace = [.indexRun m] := by
  simp [ensureModelIndexesCall, TraceM.trace_bind, TraceM.result_emit,
    TraceM.trace_emit, TraceM.trace_pure]

theorem transformRecords_result (env : SyncEnv) (records : List Rec)
    (modelName : String) (modelId : Int) :
    (transformRecords env records modelName modelId).result =
      if (env.getModelFields modelName).isEmpty then
        .error ("No schema fields found for model: " ++ modelName)
      else
        .ok (transformRecordsPure records modelName modelId
          (env.getModelFields modelName)) := by
  simp only [transformRecords, TraceM.result_bind, TraceM.result_emit]
  cases h : (env.getModelFields modelName).isEmpty <;>
    simp [h, TraceM.result_pure, TraceM.result_throw]

theorem transformRecords_trace (env : SyncEnv) (records : List Rec)
    (modelName : String) (modelId : Int) :
    (transformRecords env records modelName modelId).trace =
      [.transformRun modelName] := by
  simp only [transformRecords, TraceM.trace_bind, TraceM.result_emit,
    TraceM.trace_emit]
  cases h : (env.getModelFields modelName).isEmpty <;>
    simp [h, TraceM.trace_pure, TraceM.trace_throw]

theorem syncStartsOf_nil : syncStartsOf [] = [] := rfl

theorem syncStartsOf_append (a b : List Event) :
    syncStartsOf (a ++ b) = syncStartsOf a ++ syncStartsOf b := by
  simp [syncStartsOf, List.filterMap_append]

theorem syncStartsOf_cons (e : Event) (t : List Event) :
    syncStartsOf (e :: t) =
      (match e with | .syncStart m => [m] | _ => []) ++ syncStartsOf t := by
  cases e <;> simp [syncStartsOf, List.filterMap_cons]

theorem graphEdgesOf_nil : graphEdgesOf [] = [] := rfl

theorem graphEdgesOf_append (a b : List Event) :
    graphEdgesOf (a ++ b) = graphEdgesOf a ++ graphEdgesOf b := by
  simp [graphEdgesOf, List.filterMap_append]

theorem graphEdgesOf_cons (e : Event) (t : List Event) :
    graphEdgesOf (e :: t) =
      (match e with | .graphUpsert g => [g] | _ => []) ++ graphEdgesOf t := by
  cases e <;> simp [graphEdgesOf, List.filterMap_cons]

theorem runOneBatch_result (env : SyncEnv) (batch : List TransformedRecord)
    (n : Nat) (acc : BatchAcc) :
    (runOneBatch env batch n acc).result =
      .ok (match batchFailure env batch with
        | none => { acc with synced := acc.synced + batch.length }
        | some e =>
            { acc with
                failed := acc.failed + batch.length
                errors := acc.errors ++ [mkBatchErrorMsg n e] }) := by
  simp only [runOneBatch, TraceM.result_tryCatch, TraceM.result_bind,
    batchFailure]
  cases h : (processBatch env batch).result <;>
    simp [h, TraceM.result_pure]

theorem processBatch_trace_syncStarts (env : SyncEnv)
    (batch : List TransformedRecord) :
    syncStartsOf (processBatch env batch).trace = [] := by
  simp only [processBatch, TraceM.trace_bind, embedBatchCall_trace,
    embedBatchCall_result]
  cases h : env.embedBatch (batch.map fun r => r.vector_text)
  · simp [h, syncStartsOf_append, syncStartsOf_cons, syncStartsOf_nil]
  · simp only [h]
    split
    · simp [syncStartsOf_append, syncStartsOf_cons, syncStartsOf_nil,
        TraceM.trace_throw]
    · simp [syncStartsOf_append, syncStartsOf_cons, syncStartsOf_nil,
        upsertPointsCall_trace]

theorem runOneBatch_trace_syncStarts (env : SyncEnv)
    (batch : List TransformedRecord) (n : Nat) (acc : BatchAcc) :
    syncStartsOf (runOneBatch env batch n acc).trace = [] := by
  simp only [runOneBatch, TraceM.trace_tryCatch, TraceM.trace_bind,
    TraceM.result_bind, TraceM.trace_pure, TraceM.result_pure]
  cases h : (processBatch env batch).result <;>
    simp [h, syncStartsOf_append, processBatch_trace_syncStarts,
      TraceM.trace_pure, syncStartsOf_nil]

theorem chunksOfGo_fuel : ∀ (f1 : Nat), ∀ (f2 : Nat),
    ∀ (l : List TransformedRecord), l.length ≤ f1 → l.length ≤ f2 →
    chunksOfGo f1 l = chunksOfGo f2 l := by
  intro f1
  induction f1 with
  | zero =>
      intro f2 l hl1 _
      have hnil : l = [] := List.length_eq_zero.mp (Nat.le_zero.mp hl1)
      subst hnil
      cases f2 <;> rfl
  | succ f1 ih =>
      intro f2 l hl1 hl2
      cases l with
      | nil => cases f2 <;> rfl
      | cons x xs =>
          cases f2 with
          | zero => simp at hl2
          | succ f2 =>
              rw [chunksOfGo, chunksOfGo]
              have hd1 : ((x :: xs).drop EMBEDDING_BATCH_SIZE).length ≤ f1 := by
                rw [List.length_drop]
                simp only [List.length_cons, EMBEDDING_BATCH_SIZE] at hl1 ⊢
                omega
              have hd2 : ((x :: xs).drop EMBEDDING_BATCH_SIZE).length ≤ f2 := by
                rw [List.length_drop]
                simp only [List.length_cons, EMBEDDING_BATCH_SIZE] at hl2 ⊢
                omega
              rw [ih f2 _ hd1 hd2]

theorem chunksOf_nil : chunksOf [] = [] := rfl

theorem chunksOf_cons (x : TransformedRecord) (xs : List TransformedRecord) :
    chunksOf (x :: xs) =
      ((x :: xs).take EMBEDDING_BATCH_SIZE) ::
        chunksOf ((x :: xs).drop EMBEDDING_BATCH_SIZE) := by
  show chunksOfGo (xs.length + 1) (x :: xs) = _
  rw [chunksOfGo]
  rw [chunksOfGo_fuel xs.length ((x :: xs).drop EMBEDDING_BATCH_SIZE).length
    ((x :: xs).drop EMBEDDING_BATCH_SIZE) ?h1 (le_refl _)]
  case h1 =>
    rw [List.length_drop]
    simp only [List.length_cons, EMBEDDING_BATCH_SIZE]
    omega
  rfl

theorem batchLoopGo_spec (env : SyncEnv) : ∀ (N : Nat)
    (l : List TransformedRecord), l.length ≤ N →
    ∀ (n : Nat) (acc : BatchAcc),
    (batchLoopGo env l n acc).result =
      .ok ⟨acc.synced + chunkSynced env (chunksOf l),
           acc.failed + chunkFailed env (chunksOf l),
           acc.errors ++ chunkErrors env (chunksOf l) n⟩ ∧
    syncStartsOf (batchLoopGo env l n acc).trace = [] := by
  intro N
  induction N with
  | zero =>
      intro l hl n acc
      have hnil : l = [] := List.length_eq_zero.mp (Nat.le_zero.mp hl)
      subst hnil
      simp [batchLoopGo, chunksOf_nil, chunkSynced, chunkFailed, chunkErrors,
        TraceM.result_pure, TraceM.trace_pure, syncStartsOf_nil]
  | succ N ih =>
      intro l hl n acc
      cases l with
      | nil =>
          simp [batchLoopGo, chunksOf_nil, chunkSynced, chunkFailed, chunkErrors,
            TraceM.result_pure, TraceM.trace_pure, syncStartsOf_nil]
      | cons x xs =>
          have hdrop : ((x :: xs).drop EMBEDDING_BATCH_SIZE).length ≤ N := by
            rw [List.length_drop]
            simp only [List.length_cons, EMBEDDING_BATCH_SIZE] at hl ⊢
            omega
          have ihd := ih ((x :: xs).drop EMBEDDING_BATCH_SIZE) hdrop
          rw [batchLoopGo, chunksOf_cons]
          constructor
          · rw [TraceM.result_bind, runOneBatch_result]
            cases hf : batchFailure env ((x :: xs).take EMBEDDING_BATCH_SIZE) <;>
              simp only [hf] <;>
              rw [(ihd _ _).1] <;>
              simp only [chunkSynced, chunkFailed, chunkErrors, hf,
                Except.ok.injEq, BatchAcc.mk.injEq, Option.isNone_none,
                Option.isSome_none, Option.isNone_some, Option.isSome_some,
                if_true, if_false, List.nil_append, List.append_assoc,
                List.append_nil] <;>
              refine ⟨by simp <;> omega, by simp <;> omega, by simp⟩
          · rw [TraceM.trace_bind, runOneBatch_result]
            simp only [syncStartsOf_append, runOneBatch_trace_syncStarts]
            simp [(ihd _ _).2]

theorem runBatches_result (env : SyncEnv) (ts : List TransformedRecord) :
    (runBatches env ts).result =
      .ok ⟨chunkSynced env (chunksOf ts), chunkFailed env (chunksOf ts),
           chunkErrors env (chunksOf ts) 1⟩ := by
  have h := (batchLoopGo_spec env ts.length ts (le_refl _) 1 ⟨0, 0, []⟩).1
  simpa [runBatches] using h

theorem runBatches_trace_syncStarts (env : SyncEnv)
    (ts : List TransformedRecord) :
    syncStartsOf (runBatches env ts).trace = [] := by
  have h := (batchLoopGo_spec env ts.length ts (le_refl _) 1 ⟨0, 0, []⟩).2
  simpa [runBatches] using h

theorem chunksOf_flatten : ∀ (N : Nat) (l : List TransformedRecord),
    l.length ≤ N → (chunksOf l).flatten = l := by
  intro N
  induction N with
  | zero =>
      intro l hl
      have hnil : l = [] := List.length_eq_zero.mp (Nat.le_zero.mp hl)
      subst hnil
      simp [chunksOf_nil]
  | succ N ih =>
      intro l hl
      cases l with
      | nil => simp [chunksOf_nil]
      | cons x xs =>
          rw [chunksOf_cons]
          have hdrop : ((x :: xs).drop EMBEDDING_BATCH_SIZE).length ≤ N := by
            rw [List.length_drop]
            simp only [List.length_cons, EMBEDDING_BATCH_SIZE] at hl ⊢
            omega
          simp only [List.flatten_cons]
          rw [ih _ hdrop, List.take_append_drop]

theorem chunksOf_bounds : ∀ (N : Nat) (l : List TransformedRecord),
    l.length ≤ N → ∀ c ∈ chunksOf l,
    c ≠ [] ∧ c.length ≤ EMBEDDING_BATCH_SIZE := by
  intro N
  induction N with
  | zero =>
      intro l hl
      have hnil : l = [] := List.length_eq_zero.mp (Nat.le_zero.mp hl)
      subst hnil
      simp [chunksOf_nil]
  | succ N ih =>
      intro l hl
      cases l with
      | nil => simp [chunksOf_nil]
      | cons x xs =>
          rw [chunksOf_cons]
          intro c hc
          have hdrop : ((x :: xs).drop EMBEDDING_BATCH_SIZE).length ≤ N := by
            rw [List.length_drop]
            simp only [List.length_cons, EMBEDDING_BATCH_SIZE] at hl ⊢
            omega
          rcases List.mem_cons.mp hc with hhead | htail
          · subst hhead
            constructor
            · simp [EMBEDDING_BATCH_SIZE]
            · simp [List.length_take]
          · exact ih _ hdrop c htail

theorem chunk_conservation (env : SyncEnv) :
    ∀ cs : List (List TransformedRecord),
    chunkSynced env cs + chunkFailed env cs = (cs.map List.length).sum := by
  intro cs
  induction cs with
  | nil => simp [chunkSynced, chunkFailed]
  | cons c cs ih =>
      simp only [chunkSynced, chunkFailed, List.map_cons, List.sum_cons]
      cases h : batchFailure env c <;> simp [h] <;> omega

theorem chunkErrors_count (env : SyncEnv) :
    ∀ (cs : List (List TransformedRecord)) (n : Nat),
    (chunkErrors env cs n).length =
      (cs.filter (fun c => (batchFailure env c).isSome)).length := by
  intro cs
  induction cs with
  | nil => intro n; simp [chunkErrors]
  | cons c cs ih =>
      intro n
      simp only [chunkErrors, List.filter]
      cases h : batchFailure env c <;> simp [h, ih]

/-- **C1** (claim as stated is false at its own example): with 120 records
(batches of sizes 50, 50, 20) and a failure only in batch 2, the pipeline
ends with `records_synced = 70` and `records_failed = 50` — not
`records_synced = 100`, `records_failed = 20` as the claim asserts — while
indeed exactly one error entry names batch 2. -/
theorem c1_counterexample :
    (runBatches wBatchEnv wBatchRecords).result =
      .ok ⟨70, 50, ["Batch 2 failed: embedding service down"]⟩ ∧
    ¬((runBatches wBatchEnv wBatchRecords).result =
      .ok ⟨100, 20, ["Batch 2 failed: embedding service down"]⟩) := by
  have h := runBatches_result wBatchEnv wBatchRecords
  constructor
  · rw [h]
    exact congrArg Except.ok (by decide)
  · intro hc
    rw [h] at hc
    exact absurd (Except.ok.inj hc) (by decide)

/-- **C1** (amended): for every non-empty transformed input the batch
pipeline partitions it into contiguous, non-empty batches of at most 50
records in input order; the loop result counts exactly the sizes of the
failing batches as failed and the rest as synced (so synced + failed covers
every record), and the error list holds exactly one entry per failing
batch, tagged with that batch's number — hence with 120 records and a
failure only in batch 2, synced = 70, failed = 50, one error names
batch 2. -/
theorem c1_batch_failure_isolation (env : SyncEnv)
    (ts : List TransformedRecord) (hne : ts ≠ []) :
    (chunksOf ts).flatten = ts ∧
    (∀ c ∈ chunksOf ts, c ≠ [] ∧ c.length ≤ EMBEDDING_BATCH_SIZE) ∧
    (runBatches env ts).result =
      .ok ⟨chunkSynced env (chunksOf ts), chunkFailed env (chunksOf ts),
           chunkErrors env (chunksOf ts) 1⟩ ∧
    chunkSynced env (chunksOf ts) + chunkFailed env (chunksOf ts) =
      ts.length ∧
    (chunkErrors env (chunksOf ts) 1).length =
      ((chunksOf ts).filter (fun c => (batchFailure env c).isSome)).length := by
  refine ⟨chunksOf_flatten ts.length ts (le_refl _),
    chunksOf_bounds ts.length ts (le_refl _),
    runBatches_result env ts, ?_, chunkErrors_count env _ 1⟩
  rw [chunk_conservation env (chunksOf ts)]
  have hj := chunksOf_flatten ts.length ts (le_refl _)
  calc ((chunksOf ts).map List.length).sum
      = (chunksOf ts).flatten.length := (List.length_flatten _).symm
    _ = ts.length := by rw [hj]

/-- Witness for C1 (amended): the 120-record scenario with the embedding
service failing exactly on batch 2 yields synced = 70, failed = 50, and the
single error entry naming batch 2. -/
theorem c1_batch_failure_isolation_witness :
    wBatchRecords ≠ [] ∧
    (runBatches wBatchEnv wBatchRecords).result =
      .ok ⟨chunkSynced wBatchEnv (chunksOf wBatchRecords),
           chunkFailed wBatchEnv (chunksOf wBatchRecords),
           chunkErrors wBatchEnv (chunksOf wBatchRecords) 1⟩ ∧
    chunkSynced wBatchEnv (chunksOf wBatchRecords) = 70 ∧
    chunkFailed wBatchEnv (chunksOf wBatchRecords) = 50 ∧
    chunkErrors wBatchEnv (chunksOf wBatchRecords) 1 =
      ["Batch 2 failed: embedding service down"] := by
  have hne : wBatchRecords ≠ [] := by decide
  exact ⟨hne,
    (c1_batch_failure_isolation wBatchEnv wBatchRecords hne).2.2.1,
    by decide, by decide, by decide⟩

theorem transformRecordsPure_eq_filter_map (records : List Rec)
    (modelName : String) (modelId : Int) (fields : List SchemaField) :
    transformRecordsPure records modelName modelId fields =
      (records.filter (fun r => !isFalsy (lookupVal r "id"))).map
        (fun r => transformOneRecord r modelName modelId fields) := by
  induction records with
  | nil => rfl
  | cons r rs ih =>
      simp only [transformRecordsPure, List.filterMap_cons, List.filter_cons] at ih ⊢
      cases h : isFalsy (lookupVal r "id") <;> simp [h, ih]

/-- **C7**: `transformRecords` raises exactly when the schema registry
yields an empty field list for the model (an absent list and an empty list
coincide in this embedding, as the source checks them with one truthiness
test); under a non-empty schema it never raises, silently skips every
record whose `id` field is missing or falsy, and returns exactly one
transformed record per remaining input record, in input order. -/
theorem c7_transform_skip_and_order (env : SyncEnv) (records : List Rec)
    (modelName : String) (modelId : Int) :
    ((∃ msg, (transformRecords env records modelName modelId).result =
        .error msg) ↔ env.getModelFields modelName = []) ∧
    (env.getModelFields modelName ≠ [] →
      (transformRecords env records modelName modelId).result =
        .ok ((records.filter (fun r => !isFalsy (lookupVal r "id"))).map
          (fun r => transformOneRecord r modelName modelId
            (env.getModelFields modelName)))) := by
  have hres := transformRecords_result env records modelName modelId
  cases hf : env.getModelFields modelName with
  | nil =>
      rw [hf] at hres
      simp only [List.isEmpty_nil, if_true] at hres
      constructor
      · simp [hres]
      · intro hne; exact absurd rfl hne
  | cons f fs =>
      rw [hf] at hres
      simp only [List.isEmpty_cons, Bool.false_eq_true, if_false] at hres
      constructor
      · constructor
        · rintro ⟨msg, hmsg⟩
          rw [hres] at hmsg
          cases hmsg
        · intro h
          exact absurd h (by simp)
      · intro _
        rw [hres, transformRecordsPure_eq_filter_map]

/-- Witness for C7: model `C` of the concrete environment has a non-empty
schema; of the three input records the middle one (without `id`) is
skipped, and the remaining two are transformed in input order. -/
theorem c7_transform_skip_and_order_witness :
    abcEnv.getModelFields "C" ≠ [] ∧
    (transformRecords abcEnv c7Records "C" 30).result =
      .ok ((c7Records.filter (fun r => !isFalsy (lookupVal r "id"))).map
        (fun r => transformOneRecord r "C" 30 (abcEnv.getModelFields "C"))) ∧
    ((c7Records.filter (fun r => !isFalsy (lookupVal r "id"))).map
        (fun r => transformOneRecord r "C" 30 (abcEnv.getModelFields "C"))).length
      = 2 ∧
    (c7Records.filter (fun r => !isFalsy (lookupVal r "id"))).length + 1 =
      c7Records.length := by
  have h1 : abcEnv.getModelFields "C" ≠ [] := by decide
  exact ⟨h1, (c7_transform_skip_and_order abcEnv c7Records "C" 30).2 h1,
    by decide, by decide⟩

theorem lookupVal_map_replace (key : String) (v : Value) :
    ∀ l : List (String × Value),
    l.any (fun kv => kv.1 == key) = true →
    lookupVal (l.map (fun kv => if kv.1 == key then (key, v) else kv)) key =
      some v := by
  intro l
  induction l with
  | nil => intro h; cases h
  | cons kv rest ih =>
      intro h
      cases hk : kv.1 == key with
      | true =>
          simp only [List.map_cons, hk, if_true]
          simp [lookupVal]
      | false =>
          simp only [List.map_cons, hk, if_false]
          have hne : ¬(kv.1 = key) := by
            intro he
            rw [he] at hk
            simp at hk
          simp only [List.any_cons, hk, Bool.false_or] at h
          cases kv with
          | mk k0 v0 =>
          simp only [lookupVal]
          simp only at hne
          rw [if_neg hne]
          exact ih h

theorem lookupVal_map_replace_other (key : String) (v : Value) (k : String)
    (hk : k ≠ key) : ∀ l : List (String × Value),
    lookupVal (l.map (fun kv => if kv.1 == key then (key, v) else kv)) k =
      lookupVal l k := by
  intro l
  induction l with
  | nil => rfl
  | cons kv rest ih =>
      cases kv with
      | mk k0 v0 =>
      by_cases hek : k0 = key
      · have hb : (k0 == key) = true := by simpa using hek
        have hhead : ((k0, v0) :: rest).map
            (fun kv => if kv.1 == key then (key, v) else kv) =
            (key, v) :: rest.map (fun kv => if kv.1 == key then (key, v) else kv) := by
          simp [hb]
          intro h
          exact absurd hek h
        rw [hhead]
        simp only [lookupVal]
        rw [if_neg (show ¬(key = k) from fun he => hk he.symm),
          if_neg (show ¬(k0 = k) from fun he => hk (hek ▸ he).symm)]
        exact ih
      · have hb : (k0 == key) = false := by simpa using hek
        have hhead : ((k0, v0) :: rest).map
            (fun kv => if kv.1 == key then (key, v) else kv) =
            (k0, v0) :: rest.map (fun kv => if kv.1 == key then (key, v) else kv) := by
          simp [hb]
          intro h
          exact absurd h hek
        rw [hhead]
        simp only [lookupVal]
        by_cases hk0k : k0 = k
        · rw [if_pos hk0k, if_pos hk0k]
        · rw [if_neg hk0k, if_neg hk0k]
          exact ih

theorem lookupVal_append (k : String) (tail : List (String × Value)) :
    ∀ l, lookupVal (l ++ tail) k =
      match lookupVal l k with
      | some w => some w
      | none => lookupVal tail k := by
  intro l
  induction l with
  | nil => rfl
  | cons kv rest ih =>
      cases kv with
      | mk k0 v0 =>
      simp only [List.cons_append, lookupVal]
      by_cases hk0 : k0 = k
      · rw [if_pos hk0, if_pos hk0]
      · rw [if_neg hk0, if_neg hk0]
        exact ih

theorem lookupVal_setKey_self (l : List (String × Value)) (key : String)
    (v : Value) : lookupVal (setKey l key v) key = some v := by
  unfold setKey
  cases h : l.any (fun kv => kv.1 == key) with
  | true =>
      simp only [h, if_true]
      exact lookupVal_map_replace key v l h
  | false =>
      simp only [h, if_false, Bool.false_eq_true]
      rw [lookupVal_append]
      have : lookupVal l key = none := by
        induction l with
        | nil => rfl
        | cons kv rest ih =>
            cases kv with
            | mk k0 v0 =>
            simp only [List.any_cons, Bool.or_eq_false_iff] at h
            have hk0 : ¬(k0 = key) := by simpa using h.1
            simp only [lookupVal]
            rw [if_neg hk0]
            exact ih h.2
      rw [this]
      simp [lookupVal]

theorem lookupVal_setKey_other (l : List (String × Value)) (key : String)
    (v : Value) (k : String) (hk : k ≠ key) :
    lookupVal (setKey l key v) k = lookupVal l k := by
  unfold setKey
  cases h : l.any (fun kv => kv.1 == key) with
  | true =>
      simp only [h, if_true]
      exact lookupVal_map_replace_other key v k hk l
  | false =>
      simp only [h, if_false, Bool.false_eq_true]
      rw [lookupVal_append]
      cases hl : lookupVal l k with
      | some w => rfl
      | none =>
          simp only [lookupVal]
          rw [if_neg (show ¬(key = k) from fun he => hk he.symm)]

theorem lookupVal_foldl_setKey (key : String) :
    ∀ (l : List (String × Value)) (init : List (String × Value)),
    lookupVal (l.foldl (fun acc kv => setKey acc kv.1 kv.2) init) key =
      match lastValueOf l key with
      | some v => some v
      | none => lookupVal init key := by
  intro l
  induction l with
  | nil => intro init; rfl
  | cons kv rest ih =>
      intro init
      cases kv with
      | mk k0 v0 =>
      simp only [List.foldl_cons, lastValueOf]
      rw [ih]
      cases hl : lastValueOf rest key with
      | some w => rfl
      | none =>
          by_cases hk : k0 = key
          · have hb : (k0 == key) = true := by simpa using hk
            simp only [hb, if_true]
            subst hk
            rw [lookupVal_setKey_self]
          · have hb : (k0 == key) = false := by simpa using hk
            simp only [hb, if_false, Bool.false_eq_true]
            exact lookupVal_setKey_other init k0 v0 key
              (show key ≠ k0 from fun he => hk he.symm)

/-- **C9**: in every stored point the transformed payload is spread after
the system fields, so whenever a raw record field's name collides with a
system payload key, the stored payload carries the record's (last) value
for that key, silently overwriting the system field. -/
theorem c9_payload_spread_overrides (now : String) (t : TransformedRecord)
    (embedding : Int) (key : String) (hkey : key ∈ systemPayloadKeys)
    (v : Value) (hv : lastValueOf t.payload key = some v) :
    lookupVal (mkDataPoint now t embedding).payload key = some v := by
  simp only [mkDataPoint]
  rw [lookupVal_foldl_setKey, hv]

/-- Witness for C9: a record payload carrying `model_name = "evil"` ends up
with `model_name = "evil"` in the stored point, not the system value `"M"`. -/
theorem c9_payload_spread_overrides_witness :
    ("model_name" ∈ systemPayloadKeys) ∧
    lastValueOf collidingRecord.payload "model_name" =
      some (.vStr "evil") ∧
    lookupVal (mkDataPoint "T" collidingRecord 0).payload "model_name" =
      some (.vStr "evil") ∧
    Value.vStr "evil" ≠ Value.vStr collidingRecord.model_name := by
  refine ⟨by decide, by decide, ?_, by decide⟩
  exact c9_payload_spread_overrides "T" collidingRecord 0 "model_name"
    (by decide) _ (by decide)

theorem semanticDisplayValue_eq_spec (record : Rec) (field : SchemaField)
    (value : Value) :
    semanticDisplayValue record field value =
      if field.field_type = "many2one" then
        specRelationalRendering record field value
      else valueToString value := by
  unfold semanticDisplayValue specRelationalRendering
  by_cases hm : field.field_type = "many2one"
  · simp only [hm, if_true]
    cases hfk : extractFkValueBySchema record field.field_name with
    | scalar n => simp [hfk, FkResult.fkId, FkResult.displayName]
    | tuple n label =>
        simp only [hfk, FkResult.fkId, FkResult.displayName]
        by_cases hl : label = "" <;> simp [hl]
    | expanded n lab =>
        cases lab with
        | none => simp [hfk, FkResult.fkId, FkResult.displayName]
        | some lab2 =>
            simp only [hfk, FkResult.fkId, FkResult.displayName]
            by_cases hl : lab2 = "" <;> simp [hl]
    | noFk => simp [hfk, FkResult.fkId, FkResult.displayName]
  · simp [hm]

/-- **C6** (amended): `vector_text` consists of the model name, the record
id, then one segment per non-id schema field with a non-null, non-empty
value, in schema field order; a relational value renders as
`<label> (id: <n>)` when an FK id and a non-empty display label resolve, as
`id: <n>` when an FK id resolves without a display label, and as the
JavaScript string coercion of the raw value when no FK id resolves. -/
theorem c6_vector_text_rendering (record : Rec) (modelName : String)
    (fields : List SchemaField) :
    generateSemanticText record modelName fields =
      specVectorText record modelName fields := by
  simp only [generateSemanticText, specVectorText]
  congr 2
  apply List.filterMap_congr
  intro field _
  by_cases hid : field.field_name = "id"
  · simp [hid, specFieldSegment]
  · simp only [hid, if_false, specFieldSegment]
    cases hval : lookupVal record field.field_name with
    | none => rfl
    | some value =>
        cases value with
        | vNull => simp [isNullish]
        | vStr s =>
            by_cases hs : s = ""
            · simp [hs, isNullish]
            · simp only [isNullish]
              have hb : (s == "") = false := by simpa using hs
              simp [hb, hs, semanticDisplayValue_eq_spec]
        | vBool b => simp [isNullish, semanticDisplayValue_eq_spec]
        | vInt n => simp [isNullish, semanticDisplayValue_eq_spec]
        | vPair n lab => simp [isNullish, semanticDisplayValue_eq_spec]
        | vObj n lab => simp [isNullish, semanticDisplayValue_eq_spec]

/-- **C6** (claim as stated is false): for a many2one field holding the
non-numeric string `"abc"` (non-null, non-empty), no FK id resolves and the
segment renders the raw value `abc`, which is neither of the two claimed
forms `<label> (id: <n>)` and `id: <n>`. -/
theorem c6_counterexample :
    generateSemanticText c6Record "customer" c6Fields =
      "In model customer, record 1, Partner - abc" ∧
    semanticDisplayValue c6Record c6Field (.vStr "abc") = "abc" ∧
    (∀ n : Int, "abc" ≠ "id: " ++ toString n) ∧
    (∀ n : Int, ∀ d : String, "abc" ≠ d ++ " (id: " ++ toString n ++ ")") := by
  refine ⟨by decide, by decide, ?_, ?_⟩
  · intro n h
    have h2 := congrArg String.data h
    rw [String.data_append] at h2
    have hin : (':' : Char) ∈ "abc".data := by
      rw [h2]
      exact List.mem_append.mpr (Or.inl (by decide))
    exact absurd hin (by decide)
  · intro n d h
    have h2 := congrArg String.data h
    rw [String.data_append, String.data_append, String.data_append] at h2
    have hin : ('(' : Char) ∈ "abc".data := by
      rw [h2]
      refine List.mem_append.mpr (Or.inl ?_)
      refine List.mem_append.mpr (Or.inl ?_)
      refine List.mem_append.mpr (Or.inr ?_)
      decide
    exact absurd hin (by decide)

theorem mem_insertNewId (ids : List Int) (n m : Int) :
    m ∈ insertNewId ids n ↔ m ∈ ids ∨ m = n := by
  unfold insertNewId
  by_cases h : n ∈ ids
  · rw [if_pos h]
    constructor
    · exact Or.inl
    · rintro (hm | rfl)
      · exact hm
      · exact h
  · rw [if_neg h]
    simp

theorem nodup_insertNewId (ids : List Int) (n : Int) (h : ids.Nodup) :
    (insertNewId ids n).Nodup := by
  unfold insertNewId
  by_cases hn : n ∈ ids
  · rw [if_pos hn]; exact h
  · rw [if_neg hn]
    simp [List.nodup_append, h, hn]

theorem collectFkIds_go_spec (fieldName : String) :
    ∀ (records : List Rec) (acc : List Int), acc.Nodup →
    (records.foldl (fun ids record =>
        match (extractFkValueBySchema record fieldName).fkId with
        | some n => insertNewId ids n
        | none => ids) acc).Nodup ∧
    (∀ m, m ∈ records.foldl (fun ids record =>
        match (extractFkValueBySchema record fieldName).fkId with
        | some n => insertNewId ids n
        | none => ids) acc ↔
      m ∈ acc ∨ ∃ r ∈ records,
        (extractFkValueBySchema r fieldName).fkId = some m) := by
  intro records
  induction records with
  | nil =>
      intro acc hacc
      refine ⟨hacc, ?_⟩
      intro m
      simp
  | cons r rs ih =>
      intro acc hacc
      simp only [List.foldl_cons]
      cases hr : (extractFkValueBySchema r fieldName).fkId with
      | none =>
          have hres := ih acc hacc
          refine ⟨hres.1, ?_⟩
          intro m
          rw [(hres.2 m)]
          constructor
          · rintro (hm | ⟨r2, hr2, he⟩)
            · exact Or.inl hm
            · exact Or.inr ⟨r2, List.mem_cons_of_mem r hr2, he⟩
          · rintro (hm | ⟨r2, hr2, he⟩)
            · exact Or.inl hm
            · rcases List.mem_cons.mp hr2 with rfl | hr2
              · rw [hr] at he; cases he
              · exact Or.inr ⟨r2, hr2, he⟩
      | some n =>
          have hres := ih (insertNewId acc n) (nodup_insertNewId acc n hacc)
          refine ⟨hres.1, ?_⟩
          intro m
          rw [(hres.2 m), mem_insertNewId]
          constructor
          · rintro ((hm | rfl) | ⟨r2, hr2, he⟩)
            · exact Or.inl hm
            · exact Or.inr ⟨r, List.mem_cons_self r rs, hr⟩
            · exact Or.inr ⟨r2, List.mem_cons_of_mem r hr2, he⟩
          · rintro (hm | ⟨r2, hr2, he⟩)
            · exact Or.inl (Or.inl hm)
            · rcases List.mem_cons.mp hr2 with rfl | hr2
              · rw [hr] at he
                exact Or.inl (Or.inr (Option.some.inj he).symm)
              · exact Or.inr ⟨r2, hr2, he⟩

theorem collectFkIds_nodup (records : List Rec) (fieldName : String) :
    (collectFkIds records fieldName).Nodup :=
  (collectFkIds_go_spec fieldName records [] List.nodup_nil).1

theorem mem_collectFkIds (records : List Rec) (fieldName : String) (m : Int) :
    m ∈ collectFkIds records fieldName ↔
      ∃ r ∈ records, (extractFkValueBySchema r fieldName).fkId = some m := by
  have h := ((collectFkIds_go_spec fieldName records [] List.nodup_nil).2 m)
  simpa [collectFkIds] using h

theorem ukgAttemptedEdges_cons (modelName : String) (modelId : Int)
    (records : List Rec) (f : SchemaField) (rest : List SchemaField) :
    ukgAttemptedEdges modelName modelId records (f :: rest) =
      (if (collectFkIds records f.field_name).length > 0 then
        [mkRelationshipEdge modelName modelId f records.length
          (collectFkIds records f.field_name).length]
       else []) ++ ukgAttemptedEdges modelName modelId records rest := by
  simp only [ukgAttemptedEdges, List.filterMap_cons]
  by_cases h : (collectFkIds records f.field_name).length > 0 <;> simp [h]

theorem ukgSuccessCount_cons (env : SyncEnv) (e : Edge) (rest : List Edge) :
    ukgSuccessCount env (e :: rest) =
      (if edgeUpsertOk env e then 1 else 0) + ukgSuccessCount env rest := by
  simp only [ukgSuccessCount, List.filter_cons]
  cases h : edgeUpsertOk env e <;> simp [h] <;> omega

theorem ukgLoop_spec (env : SyncEnv) (modelName : String) (modelId : Int)
    (records : List Rec) :
    ∀ (fields : List SchemaField) (k : Nat),
    (updateKnowledgeGraphLoop env modelName modelId records fields k).result =
      .ok (k + ukgSuccessCount env
        (ukgAttemptedEdges modelName modelId records fields)) ∧
    graphEdgesOf (updateKnowledgeGraphLoop env modelName modelId records
        fields k).trace =
      ukgAttemptedEdges modelName modelId records fields ∧
    syncStartsOf (updateKnowledgeGraphLoop env modelName modelId records
        fields k).trace = [] := by
  intro fields
  induction fields with
  | nil =>
      intro k
      simp [updateKnowledgeGraphLoop, ukgAttemptedEdges, ukgSuccessCount,
        TraceM.result_pure, TraceM.trace_pure, graphEdgesOf_nil,
        syncStartsOf_nil]
  | cons f rest ih =>
      intro k
      simp only [updateKnowledgeGraphLoop]
      rw [ukgAttemptedEdges_cons]
      by_cases hlen : (collectFkIds records f.field_name).length > 0
      · simp only [hlen, if_true, List.singleton_append]
        rw [ukgSuccessCount_cons]
        cases hup : env.upsertRelationship (mkRelationshipEdge modelName
            modelId f records.length
            (collectFkIds records f.field_name).length) with
        | ok u =>
            have hok : edgeUpsertOk env (mkRelationshipEdge modelName modelId
                f records.length
                (collectFkIds records f.field_name).length) = true := by
              simp [edgeUpsertOk, hup]
            simp only [TraceM.result_bind, TraceM.trace_bind,
              TraceM.result_tryCatch, TraceM.trace_tryCatch,
              upsertRelationshipCall_result, upsertRelationshipCall_trace,
              hup, TraceM.result_pure, TraceM.trace_pure, hok, if_true]
            refine ⟨?_, ?_, ?_⟩
            · rw [(ih (k + 1)).1]
              exact congrArg Except.ok (by omega)
            · simp only [graphEdgesOf_append, (ih (k + 1)).2.1,
                graphEdgesOf_cons, graphEdgesOf_nil]
              simp
            · simp only [syncStartsOf_append, (ih (k + 1)).2.2,
                syncStartsOf_cons, syncStartsOf_nil]
              simp
        | error e =>
            have hok : edgeUpsertOk env (mkRelationshipEdge modelName modelId
                f records.length
                (collectFkIds records f.field_name).length) = false := by
              simp [edgeUpsertOk, hup]
            simp only [TraceM.result_bind, TraceM.trace_bind,
              TraceM.result_tryCatch, TraceM.trace_tryCatch,
              upsertRelationshipCall_result, upsertRelationshipCall_trace,
              hup, TraceM.result_pure, TraceM.trace_pure, hok,
              Bool.false_eq_true, if_false]
            refine ⟨?_, ?_, ?_⟩
            · rw [(ih k).1]
              exact congrArg Except.ok (by omega)
            · simp only [graphEdgesOf_append, (ih k).2.1,
                graphEdgesOf_cons, graphEdgesOf_nil]
              simp
            · simp only [syncStartsOf_append, (ih k).2.2,
                syncStartsOf_cons, syncStartsOf_nil]
              simp
      · simp only [hlen, if_false, List.nil_append]
        simp only [TraceM.result_bind, TraceM.trace_bind, TraceM.result_pure,
          TraceM.trace_pure]
        refine ⟨?_, ?_, ?_⟩
        · rw [(ih k).1]
        · simp only [List.nil_append, (ih k).2.1]
        · simp only [List.nil_append, (ih k).2.2]

/-- **C5**: for every many2one field declaring both a target model name and
a target model id, `updateKnowledgeGraph` attempts exactly one edge upsert
iff at least one record resolves an FK id for that field; every attempted
edge carries `edge_count = records.length` and `unique_targets` equal to
the number of distinct resolved FK ids (the collected id list holds exactly
the resolved ids, without duplicates); the returned `edges_created` counts
only the successful upserts (a per-field failure is caught), and the
function never propagates an error. -/
theorem c5_graph_edge_upserts (env : SyncEnv) (modelName : String)
    (modelId : Int) (records : List Rec) (schemaFields : List SchemaField) :
    (updateKnowledgeGraph env modelName modelId records schemaFields).result =
      .ok (ukgSuccessCount env (ukgAttemptedEdges modelName modelId records
        (schemaFields.filter isGraphFkField))) ∧
    graphEdgesOf (updateKnowledgeGraph env modelName modelId records
        schemaFields).trace =
      ukgAttemptedEdges modelName modelId records
        (schemaFields.filter isGraphFkField) ∧
    (∀ f ∈ schemaFields.filter isGraphFkField,
      ((∃ r ∈ records,
          ((extractFkValueBySchema r f.field_name).fkId).isSome = true) ↔
        mkRelationshipEdge modelName modelId f records.length
            (collectFkIds records f.field_name).length ∈
          ukgAttemptedEdges modelName modelId records
            (schemaFields.filter isGraphFkField))) ∧
    (∀ e ∈ ukgAttemptedEdges modelName modelId records
        (schemaFields.filter isGraphFkField),
      e.edge_count = records.length ∧
      e.unique_targets = (collectFkIds records e.field_name).length ∧
      0 < e.unique_targets) ∧
    (∀ fieldName, (collectFkIds records fieldName).Nodup) ∧
    (∀ fieldName (m : Int), m ∈ collectFkIds records fieldName ↔
      ∃ r ∈ records, (extractFkValueBySchema r fieldName).fkId = some m) := by
  have hloop := ukgLoop_spec env modelName modelId records
    (schemaFields.filter isGraphFkField) 0
  refine ⟨by simpa [updateKnowledgeGraph] using hloop.1,
    by simpa [updateKnowledgeGraph] using hloop.2.1, ?_, ?_,
    fun fieldName => collectFkIds_nodup records fieldName,
    fun fieldName m => mem_collectFkIds records fieldName m⟩
  · intro f hf
    constructor
    · rintro ⟨r, hr, hsome⟩
      rcases Option.isSome_iff_exists.mp hsome with ⟨m, hm⟩
      have hmem : m ∈ collectFkIds records f.field_name :=
        (mem_collectFkIds records f.field_name m).mpr ⟨r, hr, hm⟩
      have hpos : (collectFkIds records f.field_name).length > 0 :=
        List.length_pos.mpr (List.ne_nil_of_mem hmem)
      refine List.mem_filterMap.mpr ⟨f, hf, ?_⟩
      rw [if_pos hpos]
    · intro hmem
      rcases List.mem_filterMap.mp hmem with ⟨g, _, hfe⟩
      by_cases hg : (collectFkIds records g.field_name).length > 0
      · rw [if_pos hg] at hfe
        have he := Option.some.inj hfe
        have hname : g.field_name = f.field_name :=
          congrArg Edge.field_name he
        rw [hname] at hg
        have hne : collectFkIds records f.field_name ≠ [] :=
          List.ne_nil_of_length_pos hg
        rcases List.exists_mem_of_ne_nil _ hne with ⟨m, hm⟩
        rcases (mem_collectFkIds records f.field_name m).mp hm with ⟨r, hr, hfk⟩
        exact ⟨r, hr, by simp [hfk]⟩
      · rw [if_neg hg] at hfe
        cases hfe
  · intro e he
    rcases List.mem_filterMap.mp he with ⟨g, _, hfe⟩
    by_cases hg : (collectFkIds records g.field_name).length > 0
    · rw [if_pos hg] at hfe
      have he2 := Option.some.inj hfe
      subst he2
      refine ⟨by simp [mkRelationshipEdge], ?_, ?_⟩
      · simp [mkRelationshipEdge]
      · simpa [mkRelationshipEdge] using hg
    · rw [if_neg hg] at hfe
      cases hfe

/-- Witness for C5: in `abcEnv`, updating the graph for model `A` over
`recordsA` attempts exactly the one edge for field `b_id` (edge_count 1,
unique_targets 1) and reports one successful upsert. -/
theorem c5_graph_edge_upserts_witness :
    (updateKnowledgeGraph abcEnv "A" 10 recordsA fieldsA).result =
      .ok 1 ∧
    graphEdgesOf (updateKnowledgeGraph abcEnv "A" 10 recordsA
        fieldsA).trace =
      [mkRelationshipEdge "A" 10 ⟨2, "b_id", "B ref", "many2one", "B", 20⟩
        1 1] ∧
    (⟨2, "b_id", "B ref", "many2one", "B", 20⟩ : SchemaField) ∈
      fieldsA.filter isGraphFkField ∧
    [(("id", Value.vInt 1)), (("b_id", Value.vInt 5))] ∈ recordsA ∧
    ((extractFkValueBySchema
      [(("id", Value.vInt 1)), (("b_id", Value.vInt 5))]
      "b_id").fkId).isSome = true ∧
    mkRelationshipEdge "A" 10 ⟨2, "b_id", "B ref", "many2one", "B", 20⟩ 1 1
      ∈ ukgAttemptedEdges "A" 10 recordsA (fieldsA.filter isGraphFkField) ∧
    (mkRelationshipEdge "A" 10 ⟨2, "b_id", "B ref", "many2one", "B", 20⟩
        1 1).edge_count = recordsA.length ∧
    (mkRelationshipEdge "A" 10 ⟨2, "b_id", "B ref", "many2one", "B", 20⟩
        1 1).unique_targets =
      (collectFkIds recordsA
        (mkRelationshipEdge "A" 10
          ⟨2, "b_id", "B ref", "many2one", "B", 20⟩ 1 1).field_name).length := by
  have h := c5_graph_edge_upserts abcEnv "A" 10 recordsA fieldsA
  have hf : (⟨2, "b_id", "B ref", "many2one", "B", 20⟩ : SchemaField) ∈
      fieldsA.filter isGraphFkField := by decide
  have hrec : [(("id", Value.vInt 1)), (("b_id", Value.vInt 5))] ∈
      recordsA := by decide
  have hsome : ((extractFkValueBySchema
      [(("id", Value.vInt 1)), (("b_id", Value.vInt 5))]
      "b_id").fkId).isSome = true := by decide
  have hmem := (h.2.2.1 ⟨2, "b_id", "B ref", "many2one", "B", 20⟩ hf).mp
    ⟨[(("id", Value.vInt 1)), (("b_id", Value.vInt 5))], hrec, hsome⟩
  have hedge := h.2.2.2.1 _ hmem
  refine ⟨?_, ?_, hf, hrec, hsome, hmem, hedge.1, hedge.2.1⟩
  · rw [h.1]
    exact congrArg Except.ok (by decide)
  · rw [h.2.1]
    decide

theorem sync_no_model (env : SyncEnv) (modelName : String)
    (options : SyncOptions) (h : env.modelExists modelName = false) :
    syncExcelData env modelName options =
      (.ok (fatalSyncResult modelName 0
        (options.filePath.getD (getDefaultDataFilePath modelName))
        ("Model " ++ modelName ++ " not found in schema. Run schema sync first.")),
       [.syncStart modelName]) := by
  rw [syncExcelData]
  simp only [h, Bool.not_false, if_true]
  rfl

theorem TraceM.pure_eq {α : Type} (a : α) :
    (pure a : TraceM α) = (Except.ok a, []) := rfl

theorem TraceM.emit_eq (e : Event) : emitEvent e = (Except.ok (), [e]) := rfl

theorem TraceM.bind_eq {α β : Type} (x : TraceM α) (f : α → TraceM β) :
    x >>= f =
      (match x.1 with
       | .ok a => ((f a).1, x.2 ++ (f a).2)
       | .error e => (Except.error e, x.2)) := by
  rcases x with ⟨r, t⟩
  cases r <;> rfl

theorem TraceM.tryCatch_eq {α : Type} (x : TraceM α)
    (handler : String → TraceM α) :
    tryCatchM x handler =
      (match x.1 with
       | .ok a => (Except.ok a, x.2)
       | .error e => ((handler e).1, x.2 ++ (handler e).2)) := by
  rcases x with ⟨r, t⟩
  cases r <;> rfl

theorem TraceM.tryCatch_ok_pair {α : Type} (a : α) (t : List Event)
    (handler : String → TraceM α) :
    tryCatchM ((Except.ok a, t) : TraceM α) handler = (Except.ok a, t) := rfl

theorem TraceM.tryCatch_error_pair {α : Type} (e : String) (t : List Event)
    (handler : String → TraceM α) :
    tryCatchM ((Except.error e, t) : TraceM α) handler =
      ((handler e).1, t ++ (handler e).2) := rfl

theorem readExcelDataM_eq (env : SyncEnv) (p : String) :
    readExcelDataM env p = (env.readExcel p, [.excelRead p]) := by
  have h1 := readExcelDataM_result env p
  have h2 := readExcelDataM_trace env p
  cases he : readExcelDataM env p with
  | mk r t =>
      rw [he] at h1 h2
      simp only [TraceM.result] at h1
      simp only [TraceM.trace] at h2
      rw [h1, h2]

theorem sync_no_model_id (env : SyncEnv) (modelName : String)
    (options : SyncOptions) (hm : env.modelExists modelName = true)
    (hid : env.getModelId modelName = 0) :
    syncExcelData env modelName options =
      (.ok (fatalSyncResult modelName 0
        (options.filePath.getD (getDefaultDataFilePath modelName))
        ("Could not get model ID for: " ++ modelName)),
       [.syncStart modelName]) := by
  rw [syncExcelData]
  simp only [hm, Bool.not_true, Bool.false_eq_true, if_false, hid]
  rfl

theorem sync_read_error (env : SyncEnv) (modelName : String)
    (options : SyncOptions) (msg : String)
    (hm : env.modelExists modelName = true)
    (hid : env.getModelId modelName ≠ 0)
    (hr : env.readExcel (options.filePath.getD
      (getDefaultDataFilePath modelName)) = .error msg) :
    syncExcelData env modelName options =
      (.ok (fatalSyncResult modelName (env.getModelId modelName)
        (options.filePath.getD (getDefaultDataFilePath modelName)) msg),
       [.syncStart modelName,
        .excelRead (options.filePath.getD (getDefaultDataFilePath modelName))]) := by
  rw [syncExcelData]
  simp only [hm, Bool.not_true, Bool.false_eq_true, if_false, if_neg hid,
    readExcelDataM_eq, hr]
  rfl

theorem sync_empty_records (env : SyncEnv) (modelName : String)
    (options : SyncOptions) (records : List Rec)
    (hm : env.modelExists modelName = true)
    (hid : env.getModelId modelName ≠ 0)
    (hr : env.readExcel (options.filePath.getD
      (getDefaultDataFilePath modelName)) = .ok records)
    (hlen : records.length = 0) :
    syncExcelData env modelName options =
      (.ok { success := true, model_name := modelName,
             model_id := env.getModelId modelName,
             file_path := options.filePath.getD
               (getDefaultDataFilePath modelName),
             records_read := 0, records_synced := 0,
             records_failed := 0, errors := [] },
       [.syncStart modelName,
        .excelRead (options.filePath.getD (getDefaultDataFilePath modelName))]) := by
  rw [syncExcelData]
  simp only [hm, Bool.not_true, Bool.false_eq_true, if_false, if_neg hid,
    readExcelDataM_eq, hr, TraceM.pure_eq, TraceM.emit_eq, TraceM.bind_eq, TraceM.tryCatch_eq]
  simp only [hlen, if_pos rfl]
  rfl

theorem sync_dry_run (env : SyncEnv) (modelName : String)
    (options : SyncOptions) (records : List Rec)
    (hm : env.modelExists modelName = true)
    (hid : env.getModelId modelName ≠ 0)
    (hr : env.readExcel (options.filePath.getD
      (getDefaultDataFilePath modelName)) = .ok records)
    (hlen : records.length ≠ 0) (hdr : options.dryRun = true) :
    syncExcelData env modelName options =
      (.ok { success := true, model_name := modelName,
             model_id := env.getModelId modelName,
             file_path := options.filePath.getD
               (getDefaultDataFilePath modelName),
             records_read := records.length, records_synced := 0,
             records_failed := 0, errors := [] },
       [.syncStart modelName,
        .excelRead (options.filePath.getD (getDefaultDataFilePath modelName))]) := by
  rw [syncExcelData]
  simp only [hm, Bool.not_true, Bool.false_eq_true, if_false, if_neg hid,
    readExcelDataM_eq, hr, TraceM.pure_eq, TraceM.emit_eq, TraceM.bind_eq, TraceM.tryCatch_eq]
  simp only [if_neg hlen, hdr, if_pos rfl]
  rfl

theorem sync_main_path (env : SyncEnv) (modelName : String)
    (options : SyncOptions) (records : List Rec)
    (hm : env.modelExists modelName = true)
    (hid : env.getModelId modelName ≠ 0)
    (hr : env.readExcel (options.filePath.getD
      (getDefaultDataFilePath modelName)) = .ok records)
    (hlen : records.length ≠ 0) (hdr : options.dryRun = false) :
    syncExcelData env modelName options =
      ((syncMainPhase env modelName options (env.getModelId modelName)
          (options.filePath.getD (getDefaultDataFilePath modelName))
          records).result,
       [.syncStart modelName,
        .excelRead (options.filePath.getD (getDefaultDataFilePath modelName))]
         ++ (syncMainPhase env modelName options (env.getModelId modelName)
          (options.filePath.getD (getDefaultDataFilePath modelName))
          records).trace) := by
  rw [syncExcelData]
  simp only [hm, Bool.not_true, Bool.false_eq_true, if_false, if_neg hid,
    readExcelDataM_eq, hr, TraceM.pure_eq, TraceM.emit_eq, TraceM.bind_eq, TraceM.tryCatch_eq]
  simp only [if_neg hlen, hdr, Bool.false_eq_true, if_false]
  rfl

/-- **C4**: when the model is unknown to the schema, or the model id cannot
be resolved, or the data file is missing/unreadable, the sync immediately
returns a failed `SyncResult` with exactly one error and zero counts, and
its trace holds no transform, embedding, vector-store, graph, index, or
nested-sync operation (at most the sync entry and the file-read attempt). -/
theorem c4_fatal_to_call (env : SyncEnv) (modelName : String)
    (options : SyncOptions)
    (h : env.modelExists modelName = false ∨
         env.getModelId modelName = 0 ∨
         ∃ msg, env.readExcel (options.filePath.getD
           (getDefaultDataFilePath modelName)) = .error msg) :
    ∃ r : SyncResult,
      (syncExcelData env modelName options).result = .ok r ∧
      r.success = false ∧ r.errors.length = 1 ∧
      r.records_read = 0 ∧ r.records_synced = 0 ∧ r.records_failed = 0 ∧
      ((syncExcelData env modelName options).trace =
          [.syncStart modelName] ∨
        (syncExcelData env modelName options).trace =
          [.syncStart modelName,
           .excelRead (options.filePath.getD
             (getDefaultDataFilePath modelName))]) := by
  by_cases hm : env.modelExists modelName = true
  · by_cases hid : env.getModelId modelName = 0
    · have heq := sync_no_model_id env modelName options hm hid
      refine ⟨fatalSyncResult modelName 0
        (options.filePath.getD (getDefaultDataFilePath modelName))
        ("Could not get model ID for: " ++ modelName),
        ?_, rfl, rfl, rfl, rfl, rfl, Or.inl ?_⟩
      · rw [heq]; rfl
      · rw [heq]; rfl
    · rcases h with h1 | h2 | ⟨msg, h3⟩
      · rw [h1] at hm; exact absurd hm (by simp)
      · exact absurd h2 hid
      · have heq := sync_read_error env modelName options msg hm hid h3
        refine ⟨fatalSyncResult modelName (env.getModelId modelName)
          (options.filePath.getD (getDefaultDataFilePath modelName)) msg,
          ?_, rfl, rfl, rfl, rfl, rfl, Or.inr ?_⟩
        · rw [heq]; rfl
        · rw [heq]; rfl
  · have hm2 : env.modelExists modelName = false := by simpa using hm
    have heq := sync_no_model env modelName options hm2
    refine ⟨fatalSyncResult modelName 0
      (options.filePath.getD (getDefaultDataFilePath modelName))
      ("Model " ++ modelName ++ " not found in schema. Run schema sync first."),
      ?_, rfl, rfl, rfl, rfl, rfl, Or.inl ?_⟩
    · rw [heq]; rfl
    · rw [heq]; rfl

/-- Witness for C4: syncing the unknown model `nosuch` against the concrete
environment returns the failed result immediately, with the trace holding
only the sync entry. -/
theorem c4_fatal_to_call_witness :
    (abcEnv.modelExists "nosuch" = false ∨
      abcEnv.getModelId "nosuch" = 0 ∨
      ∃ msg, abcEnv.readExcel (SyncOptions.filePath {} |>.getD
        (getDefaultDataFilePath "nosuch")) = .error msg) ∧
    ∃ r : SyncResult,
      (syncExcelData abcEnv "nosuch" {}).result = .ok r ∧
      r.success = false ∧ r.errors.length = 1 ∧
      r.records_read = 0 ∧ r.records_synced = 0 ∧ r.records_failed = 0 ∧
      ((syncExcelData abcEnv "nosuch" {}).trace = [.syncStart "nosuch"] ∨
        (syncExcelData abcEnv "nosuch" {}).trace =
          [.syncStart "nosuch",
           .excelRead (SyncOptions.filePath {} |>.getD
             (getDefaultDataFilePath "nosuch"))]) := by
  have hd : abcEnv.modelExists "nosuch" = false := by decide
  exact ⟨Or.inl hd, c4_fatal_to_call abcEnv "nosuch" {} (Or.inl hd)⟩

/-- **C8**: with `dry_run` set and at least one loaded record, the sync
returns success with `records_read` equal to the record count, zero synced
and failed counts and no errors, and its trace is exactly the sync entry
and the file read — no transform, embedding, vector-store, graph, index,
or nested-sync operation happens. -/
theorem c8_dry_run_short_circuit (env : SyncEnv) (modelName : String)
    (options : SyncOptions) (records : List Rec)
    (hm : env.modelExists modelName = true)
    (hid : env.getModelId modelName ≠ 0)
    (hr : env.readExcel (options.filePath.getD
      (getDefaultDataFilePath modelName)) = .ok records)
    (hlen : records.length ≠ 0) (hdr : options.dryRun = true) :
    (syncExcelData env modelName options).result =
      .ok { success := true, model_name := modelName,
            model_id := env.getModelId modelName,
            file_path := options.filePath.getD
              (getDefaultDataFilePath modelName),
            records_read := records.length, records_synced := 0,
            records_failed := 0, errors := [] } ∧
    (syncExcelData env modelName options).trace =
      [.syncStart modelName,
       .excelRead (options.filePath.getD (getDefaultDataFilePath modelName))] ∧
    ((syncExcelData env modelName options).trace.filter
      Event.isWorkEvent) = [] ∧
    syncStartsOf (syncExcelData env modelName options).trace =
      [modelName] := by
  have heq := sync_dry_run env modelName options records hm hid hr hlen hdr
  refine ⟨?_, ?_, ?_, ?_⟩
  · rw [heq]; rfl
  · rw [heq]; rfl
  · rw [heq]; rfl
  · rw [heq]; rfl

/-- Witness for C8: a dry run of model `A` with its one-record file. -/
theorem c8_dry_run_short_circuit_witness :
    (abcEnv.modelExists "A" = true ∧ abcEnv.getModelId "A" ≠ 0 ∧
      abcEnv.readExcel ((SyncOptions.filePath
        { dryRun := true } : Option String).getD
        (getDefaultDataFilePath "A")) = .ok recordsA ∧
      recordsA.length ≠ 0 ∧ SyncOptions.dryRun { dryRun := true } = true) ∧
    (syncExcelData abcEnv "A" { dryRun := true }).result =
      .ok { success := true, model_name := "A", model_id := 10,
            file_path := getDefaultDataFilePath "A",
            records_read := 1, records_synced := 0,
            records_failed := 0, errors := [] } ∧
    ((syncExcelData abcEnv "A" { dryRun := true }).trace.filter
      Event.isWorkEvent) = [] := by
  have h1 : abcEnv.modelExists "A" = true := by decide
  have h2 : abcEnv.getModelId "A" ≠ 0 := by decide
  have h3 : abcEnv.readExcel ((SyncOptions.filePath
      { dryRun := true } : Option String).getD
      (getDefaultDataFilePath "A")) = .ok recordsA := by decide
  have h4 : recordsA.length ≠ 0 := by decide
  have hc := c8_dry_run_short_circuit abcEnv "A" { dryRun := true }
    recordsA h1 h2 h3 h4 rfl
  refine ⟨⟨h1, h2, h3, h4, rfl⟩, ?_, hc.2.2.1⟩
  rw [hc.1]
  rfl

/-- **C10**: when the model exists, its id resolves, records load
non-empty, and it is not a dry run, but the schema returns an empty field
list, the error raised inside `transformRecords` propagates uncaught out of
`syncExcelData`: the sync throws instead of returning a failed result. -/
theorem c10_empty_schema_throws (env : SyncEnv) (modelName : String)
    (options : SyncOptions) (records : List Rec)
    (hm : env.modelExists modelName = true)
    (hid : env.getModelId modelName ≠ 0)
    (hr : env.readExcel (options.filePath.getD
      (getDefaultDataFilePath modelName)) = .ok records)
    (hlen : records.length ≠ 0) (hdr : options.dryRun = false)
    (hfields : env.getModelFields modelName = []) :
    (syncExcelData env modelName options).result =
      .error ("No schema fields found for model: " ++ modelName) := by
  have heq := sync_main_path env modelName options records hm hid hr hlen hdr
  rw [heq]
  show (syncMainPhase env modelName options (env.getModelId modelName)
    (options.filePath.getD (getDefaultDataFilePath modelName))
    records).result = _
  have ht := transformRecords_result env records modelName
    (env.getModelId modelName)
  rw [hfields] at ht
  simp only [List.isEmpty_nil, if_true] at ht
  simp only [TraceM.result] at ht
  rw [syncMainPhase]
  simp only [TraceM.bind_eq, ht, TraceM.result]

/-- Witness for C10: model `E` of the concrete environment exists with a
non-empty data file but an empty schema field list, and the sync throws. -/
theorem c10_empty_schema_throws_witness :
    (abcEnv.modelExists "E" = true ∧ abcEnv.getModelId "E" ≠ 0 ∧
      abcEnv.readExcel ((SyncOptions.filePath {} : Option String).getD
        (getDefaultDataFilePath "E")) = .ok recordsE ∧
      recordsE.length ≠ 0 ∧ abcEnv.getModelFields "E" = []) ∧
    (syncExcelData abcEnv "E" {}).result =
      .error ("No schema fields found for model: E") := by
  have h1 : abcEnv.modelExists "E" = true := by decide
  have h2 : abcEnv.getModelId "E" ≠ 0 := by decide
  have h3 : abcEnv.readExcel ((SyncOptions.filePath {} : Option String).getD
      (getDefaultDataFilePath "E")) = .ok recordsE := by decide
  have h4 : recordsE.length ≠ 0 := by decide
  have h5 : abcEnv.getModelFields "E" = [] := by decide
  exact ⟨⟨h1, h2, h3, h4, h5⟩,
    c10_empty_schema_throws abcEnv "E" {} recordsE h1 h2 h3 h4 rfl h5⟩

theorem transformRecords_congr (env1 env2 : SyncEnv) (records : List Rec)
    (modelName : String) (modelId : Int)
    (h : env1.getModelFields = env2.getModelFields) :
    transformRecords env1 records modelName modelId =
      transformRecords env2 records modelName modelId := by
  simp only [transformRecords, h]

theorem processBatch_congr (env1 env2 : SyncEnv)
    (h1 : env1.embedBatch = env2.embedBatch)
    (h2 : env1.upsertPoints = env2.upsertPoints)
    (h3 : env1.now = env2.now) (batch : List TransformedRecord) :
    processBatch env1 batch = processBatch env2 batch := by
  simp only [processBatch, embedBatchCall, upsertPointsCall, h1, h2, h3]

theorem batchLoopGo_congr (env1 env2 : SyncEnv)
    (h : ∀ b, processBatch env1 b = processBatch env2 b) :
    ∀ (N : Nat) (l : List TransformedRecord), l.length ≤ N →
    ∀ (n : Nat) (acc : BatchAcc),
    batchLoopGo env1 l n acc = batchLoopGo env2 l n acc := by
  intro N
  induction N with
  | zero =>
      intro l hl n acc
      have hnil : l = [] := List.length_eq_zero.mp (Nat.le_zero.mp hl)
      subst hnil
      simp only [batchLoopGo]
  | succ N ih =>
      intro l hl n acc
      cases l with
      | nil => simp only [batchLoopGo]
      | cons x xs =>
          have hdrop : ((x :: xs).drop EMBEDDING_BATCH_SIZE).length ≤ N := by
            rw [List.length_drop]
            simp only [List.length_cons, EMBEDDING_BATCH_SIZE] at hl ⊢
            omega
          rw [batchLoopGo, batchLoopGo]
          simp only [runOneBatch, h]
          congr 1
          funext acc2
          exact ih _ hdrop _ acc2

theorem runBatches_congr (env1 env2 : SyncEnv)
    (h1 : env1.embedBatch = env2.embedBatch)
    (h2 : env1.upsertPoints = env2.upsertPoints)
    (h3 : env1.now = env2.now) (ts : List TransformedRecord) :
    runBatches env1 ts = runBatches env2 ts := by
  unfold runBatches
  exact batchLoopGo_congr env1 env2
    (processBatch_congr env1 env2 h1 h2 h3) ts.length ts (le_refl _) 1 _

theorem extractFkTargets_congr (env1 env2 : SyncEnv) (records : List Rec)
    (modelName : String) (h : env1.getFkFields = env2.getFkFields) :
    extractFkTargets env1 records modelName =
      extractFkTargets env2 records modelName := by
  simp only [extractFkTargets, h]

theorem syncStarts_bind_skip {α β : Type} (x : TraceM α) (f : α → TraceM β)
    (hx : syncStartsOf x.trace = [])
    (hf : ∀ a, x.result = .ok a → syncStartsOf (f a).trace = []) :
    syncStartsOf (x >>= f).trace = [] := by
  rw [TraceM.trace_bind, syncStartsOf_append, hx]
  cases hr : x.result with
  | error e => simp [syncStartsOf_nil]
  | ok a => simp [hf a hr]

theorem graphIndexPhase_syncStarts (env : SyncEnv) (modelName : String)
    (modelId : Int) (records : List Rec) :
    syncStartsOf (graphIndexPhase env modelName modelId records).trace = [] := by
  rw [graphIndexPhase]
  by_cases hsf : (env.getModelFields modelName).length > 0
  · rw [if_pos hsf]
    apply syncStarts_bind_skip
    · exact (ukgLoop_spec env modelName modelId records _ 0).2.2
    · intro _ _
      apply syncStarts_bind_skip
      · rw [ensureModelIndexesCall_trace]; rfl
      · intro _ _; rfl
  · rw [if_neg hsf]; rfl

theorem cascadePhase_syncStarts_skip (env : SyncEnv) (modelName : String)
    (options : SyncOptions) (records : List Rec)
    (h : options.skipCascade = true) :
    syncStartsOf (cascadePhase env modelName options records).trace = [] := by
  rw [cascadePhase, dif_pos h]
  rfl

theorem syncMainPhase_syncStarts_skip (env : SyncEnv) (modelName : String)
    (options : SyncOptions) (modelId : Int) (path : String)
    (records : List Rec) (h : options.skipCascade = true) :
    syncStartsOf (syncMainPhase env modelName options modelId path
      records).trace = [] := by
  rw [syncMainPhase]
  apply syncStarts_bind_skip
  · rw [transformRecords_trace]; rfl
  · intro transformed _
    apply syncStarts_bind_skip
    · exact runBatches_trace_syncStarts env transformed
    · intro b _
      apply syncStarts_bind_skip
      · exact graphIndexPhase_syncStarts env modelName modelId records
      · intro _ _
        apply syncStarts_bind_skip
        · exact cascadePhase_syncStarts_skip env modelName options records h
        · intro cascaded _; rfl

theorem sync_skip_syncStarts (env : SyncEnv) (modelName : String)
    (options : SyncOptions) (h : options.skipCascade = true) :
    syncStartsOf (syncExcelData env modelName options).trace =
      [modelName] := by
  by_cases hm : env.modelExists modelName = true
  · by_cases hid : env.getModelId modelName = 0
    · rw [sync_no_model_id env modelName options hm hid]; rfl
    · cases hr : env.readExcel (options.filePath.getD
        (getDefaultDataFilePath modelName)) with
      | error msg =>
          rw [sync_read_error env modelName options msg hm hid hr]; rfl
      | ok records =>
          by_cases hlen : records.length = 0
          · rw [sync_empty_records env modelName options records hm hid hr hlen]
            rfl
          · cases hdr : options.dryRun with
            | true =>
                rw [sync_dry_run env modelName options records hm hid hr hlen hdr]
                rfl
            | false =>
                rw [sync_main_path env modelName options records hm hid hr hlen hdr]
                show syncStartsOf ([Event.syncStart modelName,
                  Event.excelRead (options.filePath.getD
                    (getDefaultDataFilePath modelName))] ++
                  (syncMainPhase env modelName options
                    (env.getModelId modelName)
                    (options.filePath.getD (getDefaultDataFilePath modelName))
                    records).trace) = [modelName]
                rw [syncStartsOf_append,
                  syncMainPhase_syncStarts_skip env modelName options _ _ _ h]
                rfl
  · rw [sync_no_model env modelName options (by simpa using hm)]; rfl


theorem syncStarts_tryCatch_pureHandler {α : Type} (X : TraceM α) (v0 : α) :
    syncStartsOf (tryCatchM X (fun _ => pure v0)).trace =
      syncStartsOf X.trace := by
  rw [TraceM.trace_tryCatch, syncStartsOf_append]
  cases hr : X.result <;> simp [TraceM.trace_pure, syncStartsOf_nil]

theorem tryCatch_pureHandler_ok {α : Type} (X : TraceM α) (v0 : α) :
    ∃ v, (tryCatchM X (fun _ => pure v0)).result = .ok v := by
  rw [TraceM.result_tryCatch]
  cases hr : X.result with
  | ok a => exact ⟨a, rfl⟩
  | error e => exact ⟨v0, rfl⟩

theorem syncStarts_bind_pureBranches {α β : Type} (x : TraceM α)
    (f : α → TraceM β) (hf : ∀ a, (f a).trace = []) :
    syncStartsOf (x >>= f).trace = syncStartsOf x.trace := by
  rw [TraceM.trace_bind, syncStartsOf_append]
  cases hr : x.result <;> simp [hf, syncStartsOf_nil]

theorem runCascades_syncStarts (env : SyncEnv) (dryRun force : Bool) :
    ∀ targets : List (String × List Int),
    syncStartsOf (runCascades env dryRun force targets).trace =
      targets.map Prod.fst := by
  intro targets
  induction targets with
  | nil => rw [runCascades]; rfl
  | cons t rest ih =>
      cases t with
      | mk targetModel targetIds =>
      rw [runCascades]
      rw [TraceM.trace_bind, syncStartsOf_append]
      rw [syncStarts_tryCatch_pureHandler]
      rw [syncStarts_bind_pureBranches _ _
        (fun a => by by_cases hs : a.success = true <;>
          simp [hs, TraceM.trace_pure])]
      rw [sync_skip_syncStarts env targetModel _ rfl]
      rcases tryCatch_pureHandler_ok
        (syncExcelData env targetModel
          { filePath := none, skipCascade := true, dryRun := dryRun,
            force := force } >>= fun cascadeResult =>
          if cascadeResult.success = true then
            pure [(targetModel, cascadeResult.records_synced)]
          else pure ([] : List (String × Nat)))
        ([] : List (String × Nat)) with ⟨v, hv⟩
      simp only [hv]
      rw [TraceM.trace_bind, syncStartsOf_append, ih]
      cases hres : (runCascades env dryRun force rest).result <;>
        simp [syncStartsOf_nil, TraceM.trace_pure]

theorem cascadePhase_syncStarts_noskip (env : SyncEnv) (modelName : String)
    (options : SyncOptions) (records : List Rec)
    (h : options.skipCascade = false) :
    syncStartsOf (cascadePhase env modelName options records).trace =
      (extractFkTargets env records modelName).map Prod.fst := by
  rw [cascadePhase, dif_neg (by simp [h])]
  by_cases ht : (extractFkTargets env records modelName).length > 0
  · simp only [ht, if_true]
    exact runCascades_syncStarts env options.dryRun options.force _
  · simp only [ht, if_false]
    have : extractFkTargets env records modelName = [] := by
      rcases Nat.eq_zero_or_pos (extractFkTargets env records modelName).length
        with hz | hp
      · exact List.length_eq_zero.mp hz
      · exact absurd hp ht
    rw [this]
    rfl

theorem graphIndexPhase_ok (env : SyncEnv) (modelName : String)
    (modelId : Int) (records : List Rec) :
    (graphIndexPhase env modelName modelId records).result = .ok () := by
  rw [graphIndexPhase]
  by_cases hsf : (env.getModelFields modelName).length > 0
  · rw [if_pos hsf]
    have h1 : (updateKnowledgeGraph env modelName modelId records
        (env.getModelFields modelName)).result =
        .ok (0 + ukgSuccessCount env (ukgAttemptedEdges modelName modelId
          records ((env.getModelFields modelName).filter isGraphFkField))) :=
      (ukgLoop_spec env modelName modelId records _ 0).1
    simp only [TraceM.result_bind, h1, ensureModelIndexesCall_result,
      TraceM.result_pure]
  · rw [if_neg hsf]; rfl

theorem syncStarts_bind_ok {α β : Type} (x : TraceM α) (f : α → TraceM β)
    (a : α) (hx : syncStartsOf x.trace = []) (hr : x.result = .ok a)
    (res : List String) (hf : syncStartsOf (f a).trace = res) :
    syncStartsOf (x >>= f).trace = res := by
  rw [TraceM.trace_bind, syncStartsOf_append, hx, hr]
  simp [hf]

theorem syncMainPhase_syncStarts_noskip (env : SyncEnv) (modelName : String)
    (options : SyncOptions) (modelId : Int) (path : String)
    (records : List Rec) (h : options.skipCascade = false)
    (hfields : (env.getModelFields modelName).isEmpty = false) :
    syncStartsOf (syncMainPhase env modelName options modelId path
      records).trace =
      (extractFkTargets env records modelName).map Prod.fst := by
  have ht : (transformRecords env records modelName modelId).result =
      .ok (transformRecordsPure records modelName modelId
        (env.getModelFields modelName)) := by
    rw [transformRecords_result, hfields]
    simp
  rw [syncMainPhase]
  apply syncStarts_bind_ok _ _ _ (by rw [transformRecords_trace]; rfl) ht
  apply syncStarts_bind_ok _ _ _
    (runBatches_trace_syncStarts env _) (runBatches_result env _)
  apply syncStarts_bind_ok _ _ ()
    (graphIndexPhase_syncStarts env modelName modelId records)
    (graphIndexPhase_ok env modelName modelId records)
  refine (syncStarts_bind_pureBranches _ _ ?_).trans ?_
  · intro cascaded
    rfl
  · exact cascadePhase_syncStarts_noskip env modelName options records h

theorem upsertRelationshipCall_congr (env1 env2 : SyncEnv)
    (h : env1.upsertRelationship = env2.upsertRelationship) (edge : Edge) :
    upsertRelationshipCall env1 edge = upsertRelationshipCall env2 edge := by
  unfold upsertRelationshipCall
  rw [h]

theorem ensureModelIndexesCall_congr (env1 env2 : SyncEnv)
    (h : env1.ensureModelIndexes = env2.ensureModelIndexes)
    (modelName : String) (fields : List SchemaField) :
    ensureModelIndexesCall env1 modelName fields =
      ensureModelIndexesCall env2 modelName fields := by
  unfold ensureModelIndexesCall
  rw [h]

theorem updateKnowledgeGraphLoop_congr (env1 env2 : SyncEnv)
    (h : env1.upsertRelationship = env2.upsertRelationship)
    (modelName : String) (modelId : Int) (records : List Rec) :
    ∀ (fields : List SchemaField) (k : Nat),
    updateKnowledgeGraphLoop env1 modelName modelId records fields k =
      updateKnowledgeGraphLoop env2 modelName modelId records fields k := by
  intro fields
  induction fields with
  | nil => intro k; rfl
  | cons f rest ih =>
      intro k
      simp only [updateKnowledgeGraphLoop,
        upsertRelationshipCall_congr env1 env2 h, ih]

theorem updateKnowledgeGraph_congr (env1 env2 : SyncEnv)
    (h : env1.upsertRelationship = env2.upsertRelationship)
    (modelName : String) (modelId : Int) (records : List Rec)
    (schemaFields : List SchemaField) :
    updateKnowledgeGraph env1 modelName modelId records schemaFields =
      updateKnowledgeGraph env2 modelName modelId records schemaFields := by
  unfold updateKnowledgeGraph
  rw [updateKnowledgeGraphLoop_congr env1 env2 h]

theorem graphIndexPhase_congr (env1 env2 : SyncEnv)
    (hgm : env1.getModelFields = env2.getModelFields)
    (hur : env1.upsertRelationship = env2.upsertRelationship)
    (hemi : env1.ensureModelIndexes = env2.ensureModelIndexes)
    (modelName : String) (modelId : Int) (records : List Rec) :
    graphIndexPhase env1 modelName modelId records =
      graphIndexPhase env2 modelName modelId records := by
  unfold graphIndexPhase
  simp only [hgm, updateKnowledgeGraph_congr env1 env2 hur,
    ensureModelIndexesCall_congr env1 env2 hemi]

theorem graphIndexPhase_getFkFields_congr (env : SyncEnv)
    (g : String → List SchemaField) (modelName : String) (modelId : Int)
    (records : List Rec) :
    graphIndexPhase { env with getFkFields := g } modelName modelId records =
      graphIndexPhase env modelName modelId records :=
  graphIndexPhase_congr { env with getFkFields := g } env rfl rfl rfl
    modelName modelId records

theorem cascadePhase_skip_congr (env1 env2 : SyncEnv) (modelName : String)
    (options : SyncOptions) (records : List Rec)
    (h : options.skipCascade = true) :
    cascadePhase env1 modelName options records =
      cascadePhase env2 modelName options records := by
  rw [cascadePhase, cascadePhase, dif_pos h, dif_pos h]

theorem syncMainPhase_skip_getFkFields (env : SyncEnv)
    (g : String → List SchemaField) (modelName : String)
    (options : SyncOptions) (modelId : Int) (path : String)
    (records : List Rec) (h : options.skipCascade = true) :
    syncMainPhase { env with getFkFields := g } modelName options modelId
      path records =
      syncMainPhase env modelName options modelId path records := by
  rw [syncMainPhase, syncMainPhase]
  simp only [transformRecords_congr { env with getFkFields := g } env
      records modelName modelId rfl,
    runBatches_congr { env with getFkFields := g } env rfl rfl rfl,
    graphIndexPhase_getFkFields_congr,
    cascadePhase_skip_congr { env with getFkFields := g } env modelName
      options records h]

theorem sync_skip_getFkFields_irrelevant (env : SyncEnv)
    (g : String → List SchemaField) (modelName : String)
    (options : SyncOptions) (h : options.skipCascade = true) :
    syncExcelData { env with getFkFields := g } modelName options =
      syncExcelData env modelName options := by
  by_cases hm : env.modelExists modelName = true
  · by_cases hid : env.getModelId modelName = 0
    · rw [sync_no_model_id { env with getFkFields := g } modelName options
        hm hid, sync_no_model_id env modelName options hm hid]
    · cases hr : env.readExcel (options.filePath.getD
        (getDefaultDataFilePath modelName)) with
      | error msg =>
          rw [sync_read_error { env with getFkFields := g } modelName
            options msg hm hid hr,
            sync_read_error env modelName options msg hm hid hr]
      | ok records =>
          by_cases hlen : records.length = 0
          · rw [sync_empty_records { env with getFkFields := g } modelName
              options records hm hid hr hlen,
              sync_empty_records env modelName options records hm hid hr hlen]
          · cases hdr : options.dryRun with
            | true =>
                rw [sync_dry_run { env with getFkFields := g } modelName
                  options records hm hid hr hlen hdr,
                  sync_dry_run env modelName options records hm hid hr hlen hdr]
            | false =>
                rw [sync_main_path { env with getFkFields := g } modelName
                  options records hm hid hr hlen hdr,
                  sync_main_path env modelName options records hm hid hr hlen hdr,
                  syncMainPhase_skip_getFkFields env g modelName options _ _
                    records h]
  · have hm2 : env.modelExists modelName = false := by simpa using hm
    rw [sync_no_model { env with getFkFields := g } modelName options hm2,
      sync_no_model env modelName options hm2]

/-- **C2**: a cascade-disabled call performs exactly its own sync (its
trace holds exactly one sync entry) and never consults the FK-field
registry (its outcome is invariant under any change to `getFkFields`);
a cascade-enabled call on the happy path enters exactly one nested sync
per discovered FK target model — each nested call runs cascade-disabled,
so no second-hop sync ever starts from the root call. -/
theorem c2_cascade_bounded_one_hop :
    (∀ (env : SyncEnv) (n : String) (o : SyncOptions),
      o.skipCascade = true →
      syncStartsOf (syncExcelData env n o).trace = [n]) ∧
    (∀ (env : SyncEnv) (g : String → List SchemaField) (n : String)
      (o : SyncOptions), o.skipCascade = true →
      syncExcelData { env with getFkFields := g } n o =
        syncExcelData env n o) ∧
    (∀ (env : SyncEnv) (n : String) (o : SyncOptions) (records : List Rec),
      o.skipCascade = false →
      env.modelExists n = true → env.getModelId n ≠ 0 →
      env.readExcel (o.filePath.getD (getDefaultDataFilePath n)) =
        .ok records →
      records.length ≠ 0 → o.dryRun = false →
      (env.getModelFields n).isEmpty = false →
      syncStartsOf (syncExcelData env n o).trace =
        n :: (extractFkTargets env records n).map Prod.fst) := by
  refine ⟨fun env n o h => sync_skip_syncStarts env n o h,
    fun env g n o h => sync_skip_getFkFields_irrelevant env g n o h,
    fun env n o records h hm hid hr hlen hdr hf => ?_⟩
  rw [sync_main_path env n o records hm hid hr hlen hdr]
  show syncStartsOf ([Event.syncStart n,
    Event.excelRead (o.filePath.getD (getDefaultDataFilePath n))] ++
    (syncMainPhase env n o (env.getModelId n)
      (o.filePath.getD (getDefaultDataFilePath n)) records).trace) = _
  rw [syncStartsOf_append,
    syncMainPhase_syncStarts_noskip env n o _ _ records h hf]
  rfl

/-- Witness for C2: in the concrete `A → B → C` environment, syncing `A`
with cascade enabled enters exactly the syncs of `A` and `B`; `C` is never
entered from the root call. -/
theorem c2_cascade_bounded_one_hop_witness :
    (abcEnv.modelExists "A" = true ∧ abcEnv.getModelId "A" ≠ 0 ∧
      abcEnv.readExcel ((SyncOptions.filePath {} : Option String).getD
        (getDefaultDataFilePath "A")) = .ok recordsA ∧
      recordsA.length ≠ 0 ∧ (abcEnv.getModelFields "A").isEmpty = false) ∧
    syncStartsOf (syncExcelData abcEnv "A" {}).trace = ["A", "B"] ∧
    "C" ∉ syncStartsOf (syncExcelData abcEnv "A" {}).trace := by
  have h1 : abcEnv.modelExists "A" = true := by decide
  have h2 : abcEnv.getModelId "A" ≠ 0 := by decide
  have h3 : abcEnv.readExcel ((SyncOptions.filePath {} : Option String).getD
      (getDefaultDataFilePath "A")) = .ok recordsA := by rfl
  have h4 : recordsA.length ≠ 0 := by decide
  have h5 : (abcEnv.getModelFields "A").isEmpty = false := by decide
  have hc := c2_cascade_bounded_one_hop.2.2 abcEnv "A" {} recordsA rfl
    h1 h2 h3 h4 rfl h5
  have hmap : ("A" : String) ::
      (extractFkTargets abcEnv recordsA "A").map Prod.fst = ["A", "B"] := by
    decide
  rw [hmap] at hc
  exact ⟨⟨h1, h2, h3, h4, h5⟩, hc, by rw [hc]; decide⟩

theorem runCascades_ok (env : SyncEnv) (dryRun force : Bool) :
    ∀ targets : List (String × List Int),
    ∃ l, (runCascades env dryRun force targets).result = .ok l := by
  intro targets
  induction targets with
  | nil => exact ⟨[], by rw [runCascades]; rfl⟩
  | cons t rest ih =>
      cases t with
      | mk targetModel targetIds =>
      rw [runCascades]
      rw [TraceM.result_bind]
      rcases tryCatch_pureHandler_ok
        (syncExcelData env targetModel
          { filePath := none, skipCascade := true, dryRun := dryRun,
            force := force } >>= fun cascadeResult =>
          if cascadeResult.success = true then
            pure [(targetModel, cascadeResult.records_synced)]
          else pure ([] : List (String × Nat)))
        ([] : List (String × Nat)) with ⟨v, hv⟩
      rcases ih with ⟨l, hl⟩
      refine ⟨v ++ l, ?_⟩
      simp only [hv]
      rw [TraceM.result_bind, hl]
      rfl

theorem cascadePhase_ok (env : SyncEnv) (modelName : String)
    (options : SyncOptions) (records : List Rec) :
    ∃ l, (cascadePhase env modelName options records).result = .ok l := by
  by_cases h : options.skipCascade = true
  · exact ⟨[], by rw [cascadePhase, dif_pos h]; rfl⟩
  · rw [cascadePhase, dif_neg h]
    by_cases ht : (extractFkTargets env records modelName).length > 0
    · simp only [ht, if_true]
      exact runCascades_ok env options.dryRun options.force _
    · simp only [ht, if_false]
      exact ⟨[], rfl⟩

theorem cascadePhase_result_skip (env : SyncEnv) (modelName : String)
    (options : SyncOptions) (records : List Rec)
    (h : options.skipCascade = true) :
    (cascadePhase env modelName options records).result = .ok [] := by
  rw [cascadePhase, dif_pos h]
  rfl

theorem syncMainPhase_result_eq (env : SyncEnv) (modelName : String)
    (options : SyncOptions) (modelId : Int) (path : String)
    (records : List Rec) :
    (syncMainPhase env modelName options modelId path records).result =
      match (transformRecords env records modelName modelId).result with
      | .error e => .error e
      | .ok transformed =>
          match (runBatches env transformed).result with
          | .error e => .error e
          | .ok b =>
              match (cascadePhase env modelName options records).result with
              | .error e => .error e
              | .ok casc =>
                  .ok { success := b.errors.length == 0
                        model_name := modelName
                        model_id := modelId
                        file_path := path
                        records_read := records.length
                        records_synced := b.synced
                        records_failed := b.failed
                        errors := b.errors
                        cascaded_models :=
                          if casc.length > 0 then some casc else none } := by
  rw [syncMainPhase]
  rw [TraceM.result_bind]
  cases ht : (transformRecords env records modelName modelId).result with
  | error e => rfl
  | ok transformed =>
      simp only
      rw [TraceM.result_bind]
      cases hb : (runBatches env transformed).result with
      | error e => rfl
      | ok b =>
          simp only
          rw [TraceM.result_bind, graphIndexPhase_ok]
          simp only
          rw [TraceM.result_bind]
          cases hc : (cascadePhase env modelName options records).result with
          | error e => rfl
          | ok casc => rfl

theorem syncMainPhase_result_congr_core (env1 env2 : SyncEnv)
    (modelName : String) (options : SyncOptions) (modelId : Int)
    (path : String) (records : List Rec)
    (htr : transformRecords env1 records modelName modelId =
      transformRecords env2 records modelName modelId)
    (hrb : ∀ ts, runBatches env1 ts = runBatches env2 ts)
    (hcs : (cascadePhase env1 modelName options records).result =
      (cascadePhase env2 modelName options records).result) :
    (syncMainPhase env1 modelName options modelId path records).result =
      (syncMainPhase env2 modelName options modelId path records).result := by
  rw [syncMainPhase_result_eq, syncMainPhase_result_eq, htr, hcs]
  cases (transformRecords env2 records modelName modelId).result with
  | error e => rfl
  | ok transformed =>
      simp only
      rw [hrb]

theorem runCascades_cons_result (env : SyncEnv) (dryRun force : Bool)
    (targetModel : String) (targetIds : List Int)
    (rest : List (String × List Int)) :
    (runCascades env dryRun force ((targetModel, targetIds) :: rest)).result =
      match (runCascades env dryRun force rest).result with
      | .ok restEntries =>
          .ok ((match (syncExcelData env targetModel
              { filePath := none, skipCascade := true, dryRun := dryRun,
                force := force }).result with
            | .ok r => if r.success = true then
                [(targetModel, r.records_synced)] else []
            | .error _ => []) ++ restEntries)
      | .error e => .error e := by
  rw [runCascades, TraceM.result_bind, TraceM.result_tryCatch,
    TraceM.result_bind]
  cases hs : (syncExcelData env targetModel
      { filePath := none, skipCascade := true, dryRun := dryRun,
        force := force }).result with
  | error e =>
      simp only [TraceM.result_pure]
      rw [TraceM.result_bind]
      cases (runCascades env dryRun force rest).result <;> rfl
  | ok r =>
      simp only
      by_cases hsucc : r.success = true
      · simp only [hsucc, if_true, TraceM.result_pure]
        rw [TraceM.result_bind]
        cases (runCascades env dryRun force rest).result <;> rfl
      · simp only [hsucc, Bool.false_eq_true, if_false, TraceM.result_pure]
        rw [TraceM.result_bind]
        cases (runCascades env dryRun force rest).result <;> rfl

theorem sync_result_congr_aux (env1 env2 : SyncEnv)
    (hm : env1.modelExists = env2.modelExists)
    (hid : env1.getModelId = env2.getModelId)
    (hre : env1.readExcel = env2.readExcel)
    (hgm : env1.getModelFields = env2.getModelFields)
    (hem : env1.embedBatch = env2.embedBatch)
    (hup : env1.upsertPoints = env2.upsertPoints)
    (hnow : env1.now = env2.now)
    (modelName : String) (options : SyncOptions)
    (hcs : ∀ records : List Rec,
      (cascadePhase env1 modelName options records).result =
        (cascadePhase env2 modelName options records).result) :
    (syncExcelData env1 modelName options).result =
      (syncExcelData env2 modelName options).result := by
  by_cases hmx : env2.modelExists modelName = true
  · have hmx1 : env1.modelExists modelName = true := by rw [hm]; exact hmx
    by_cases hidx : env2.getModelId modelName = 0
    · have hidx1 : env1.getModelId modelName = 0 := by rw [hid]; exact hidx
      rw [sync_no_model_id env1 modelName options hmx1 hidx1,
        sync_no_model_id env2 modelName options hmx hidx]
    · have hidx1 : env1.getModelId modelName ≠ 0 := by rw [hid]; exact hidx
      cases hr : env2.readExcel (options.filePath.getD
          (getDefaultDataFilePath modelName)) with
      | error msg =>
          have hr1 : env1.readExcel (options.filePath.getD
              (getDefaultDataFilePath modelName)) = .error msg := by
            rw [hre]; exact hr
          rw [sync_read_error env1 modelName options msg hmx1 hidx1 hr1,
            sync_read_error env2 modelName options msg hmx hidx hr]
          simp only [TraceM.result, hid]
      | ok records =>
          have hr1 : env1.readExcel (options.filePath.getD
              (getDefaultDataFilePath modelName)) = .ok records := by
            rw [hre]; exact hr
          by_cases hlen : records.length = 0
          · rw [sync_empty_records env1 modelName options records hmx1 hidx1
              hr1 hlen,
              sync_empty_records env2 modelName options records hmx hidx
              hr hlen]
            simp only [TraceM.result, hid]
          · cases hdr : options.dryRun with
            | true =>
                rw [sync_dry_run env1 modelName options records hmx1 hidx1
                  hr1 hlen hdr,
                  sync_dry_run env2 modelName options records hmx hidx
                  hr hlen hdr]
                simp only [TraceM.result, hid]
            | false =>
                rw [sync_main_path env1 modelName options records hmx1 hidx1
                  hr1 hlen hdr,
                  sync_main_path env2 modelName options records hmx hidx
                  hr hlen hdr]
                simp only [TraceM.result, hid]
                exact syncMainPhase_result_congr_core env1 env2 modelName
                  options _ _ records
                  (transformRecords_congr env1 env2 records modelName _ hgm)
                  (runBatches_congr env1 env2 hem hup hnow)
                  (hcs records)
  · have hmx2 : env2.modelExists modelName = false := by simpa using hmx
    have hmx1 : env1.modelExists modelName = false := by rw [hm]; exact hmx2
    rw [sync_no_model env1 modelName options hmx1,
      sync_no_model env2 modelName options hmx2]

theorem sync_result_congr_skip (env1 env2 : SyncEnv)
    (hm : env1.modelExists = env2.modelExists)
    (hid : env1.getModelId = env2.getModelId)
    (hre : env1.readExcel = env2.readExcel)
    (hgm : env1.getModelFields = env2.getModelFields)
    (hem : env1.embedBatch = env2.embedBatch)
    (hup : env1.upsertPoints = env2.upsertPoints)
    (hnow : env1.now = env2.now)
    (modelName : String) (options : SyncOptions)
    (h : options.skipCascade = true) :
    (syncExcelData env1 modelName options).result =
      (syncExcelData env2 modelName options).result :=
  sync_result_congr_aux env1 env2 hm hid hre hgm hem hup hnow modelName
    options (fun records => by
      rw [cascadePhase_result_skip env1 modelName options records h,
        cascadePhase_result_skip env2 modelName options records h])

theorem runCascades_result_congr (env1 env2 : SyncEnv)
    (hm : env1.modelExists = env2.modelExists)
    (hid : env1.getModelId = env2.getModelId)
    (hre : env1.readExcel = env2.readExcel)
    (hgm : env1.getModelFields = env2.getModelFields)
    (hem : env1.embedBatch = env2.embedBatch)
    (hup : env1.upsertPoints = env2.upsertPoints)
    (hnow : env1.now = env2.now) (dryRun force : Bool) :
    ∀ targets : List (String × List Int),
    (runCascades env1 dryRun force targets).result =
      (runCascades env2 dryRun force targets).result := by
  intro targets
  induction targets with
  | nil => rw [runCascades, runCascades]
  | cons t rest ih =>
      cases t with
      | mk targetModel targetIds =>
      rw [runCascades_cons_result, runCascades_cons_result, ih,
        sync_result_congr_skip env1 env2 hm hid hre hgm hem hup hnow
          targetModel
          { filePath := none, skipCascade := true, dryRun := dryRun,
            force := force } rfl]

theorem cascadePhase_result_congr (env1 env2 : SyncEnv)
    (hm : env1.modelExists = env2.modelExists)
    (hid : env1.getModelId = env2.getModelId)
    (hre : env1.readExcel = env2.readExcel)
    (hgm : env1.getModelFields = env2.getModelFields)
    (hfk : env1.getFkFields = env2.getFkFields)
    (hem : env1.embedBatch = env2.embedBatch)
    (hup : env1.upsertPoints = env2.upsertPoints)
    (hnow : env1.now = env2.now)
    (modelName : String) (options : SyncOptions) (records : List Rec) :
    (cascadePhase env1 modelName options records).result =
      (cascadePhase env2 modelName options records).result := by
  by_cases h : options.skipCascade = true
  · rw [cascadePhase_result_skip env1 modelName options records h,
      cascadePhase_result_skip env2 modelName options records h]
  · rw [cascadePhase, cascadePhase, dif_neg h, dif_neg h,
      extractFkTargets_congr env1 env2 records modelName hfk]
    by_cases ht : (extractFkTargets env2 records modelName).length > 0
    · simp only [ht, if_true]
      exact runCascades_result_congr env1 env2 hm hid hre hgm hem hup hnow
        options.dryRun options.force _
    · simp only [ht, if_false]

theorem sync_result_congr_advisory (env1 env2 : SyncEnv)
    (hm : env1.modelExists = env2.modelExists)
    (hid : env1.getModelId = env2.getModelId)
    (hre : env1.readExcel = env2.readExcel)
    (hgm : env1.getModelFields = env2.getModelFields)
    (hfk : env1.getFkFields = env2.getFkFields)
    (hem : env1.embedBatch = env2.embedBatch)
    (hup : env1.upsertPoints = env2.upsertPoints)
    (hnow : env1.now = env2.now)
    (modelName : String) (options : SyncOptions) :
    (syncExcelData env1 modelName options).result =
      (syncExcelData env2 modelName options).result :=
  sync_result_congr_aux env1 env2 hm hid hre hgm hem hup hnow modelName
    options (fun records =>
      cascadePhase_result_congr env1 env2 hm hid hre hgm hfk hem hup hnow
        modelName options records)

theorem TraceM.result_pair {α : Type} (a : Except String α)
    (t : List Event) : TraceM.result (a, t) = a := rfl

theorem sync_success_iff_errors (env : SyncEnv) (modelName : String)
    (options : SyncOptions) (r : SyncResult)
    (h : (syncExcelData env modelName options).result = .ok r) :
    r.success = r.errors.isEmpty := by
  by_cases hm : env.modelExists modelName = true
  · by_cases hid : env.getModelId modelName = 0
    · rw [sync_no_model_id env modelName options hm hid] at h
      simp only [TraceM.result] at h
      cases Except.ok.inj h
      rfl
    · cases hr : env.readExcel (options.filePath.getD
          (getDefaultDataFilePath modelName)) with
      | error msg =>
          rw [sync_read_error env modelName options msg hm hid hr] at h
          simp only [TraceM.result] at h
          cases Except.ok.inj h
          rfl
      | ok records =>
          by_cases hlen : records.length = 0
          · rw [sync_empty_records env modelName options records hm hid hr
              hlen] at h
            simp only [TraceM.result] at h
            cases Except.ok.inj h
            rfl
          · cases hdr : options.dryRun with
            | true =>
                rw [sync_dry_run env modelName options records hm hid hr
                  hlen hdr] at h
                simp only [TraceM.result] at h
                cases Except.ok.inj h
                rfl
            | false =>
                rw [sync_main_path env modelName options records hm hid hr
                  hlen hdr] at h
                rw [TraceM.result_pair] at h
                rw [syncMainPhase_result_eq] at h
                cases ht : (transformRecords env records modelName
                    (env.getModelId modelName)).result with
                | error e => rw [ht] at h; exact Except.noConfusion h
                | ok transformed =>
                    rw [ht] at h
                    simp only at h
                    cases hb : (runBatches env transformed).result with
                    | error e => rw [hb] at h; exact Except.noConfusion h
                    | ok b =>
                        rw [hb] at h
                        simp only at h
                        cases hc : (cascadePhase env modelName options
                            records).result with
                        | error e => rw [hc] at h; exact Except.noConfusion h
                        | ok casc =>
                            rw [hc] at h
                            simp only at h
                            cases Except.ok.inj h
                            show (b.errors.length == 0) = b.errors.isEmpty
                            cases b.errors <;> rfl
  · have hm2 : env.modelExists modelName = false := by simpa using hm
    rw [sync_no_model env modelName options hm2] at h
    simp only [TraceM.result] at h
    cases Except.ok.inj h
    rfl

theorem sync_skipCascade_core (env : SyncEnv) (modelName : String)
    (options : SyncOptions) :
    (syncExcelData env modelName options).result.map resultCore =
      (syncExcelData env modelName
        { options with skipCascade := true }).result.map resultCore := by
  by_cases hm : env.modelExists modelName = true
  · by_cases hid : env.getModelId modelName = 0
    · rw [sync_no_model_id env modelName options hm hid,
        sync_no_model_id env modelName
          { options with skipCascade := true } hm hid]
    · cases hr : env.readExcel (options.filePath.getD
          (getDefaultDataFilePath modelName)) with
      | error msg =>
          rw [sync_read_error env modelName options msg hm hid hr,
            sync_read_error env modelName
              { options with skipCascade := true } msg hm hid hr]
      | ok records =>
          by_cases hlen : records.length = 0
          · rw [sync_empty_records env modelName options records hm hid hr
              hlen,
              sync_empty_records env modelName
                { options with skipCascade := true } records hm hid hr hlen]
          · by_cases hdr : options.dryRun = true
            · rw [sync_dry_run env modelName options records hm hid hr
                  hlen hdr,
                  sync_dry_run env modelName
                    { options with skipCascade := true } records hm hid hr
                    hlen hdr]
            · have hdrf : options.dryRun = false := by simpa using hdr
              rw [sync_main_path env modelName options records hm hid hr
                  hlen hdrf,
                  sync_main_path env modelName
                    { options with skipCascade := true } records hm hid hr
                    hlen hdrf]
              rw [TraceM.result_pair, TraceM.result_pair]
              rcases cascadePhase_ok env modelName options records with
                ⟨casc, hc⟩
              rw [syncMainPhase_result_eq, syncMainPhase_result_eq, hc,
                cascadePhase_result_skip env modelName
                  { options with skipCascade := true } records rfl]
              cases (transformRecords env records modelName
                  (env.getModelId modelName)).result with
              | error e => rfl
              | ok t =>
                  simp only
                  cases (runBatches env t).result with
                  | error e => rfl
                  | ok b => rfl
  · have hm2 : env.modelExists modelName = false := by simpa using hm
    rw [sync_no_model env modelName options hm2,
      sync_no_model env modelName { options with skipCascade := true } hm2]

theorem runCascades_entries_ok (env : SyncEnv) (dryRun force : Bool) :
    ∀ (targets : List (String × List Int)) (entries : List (String × Nat)),
    (runCascades env dryRun force targets).result = .ok entries →
    ∀ p ∈ entries, ∃ r : SyncResult,
      (syncExcelData env p.1
        { filePath := none, skipCascade := true, dryRun := dryRun,
          force := force }).result = .ok r ∧
      r.success = true ∧ p.2 = r.records_synced := by
  intro targets
  induction targets with
  | nil =>
      intro entries h p hp
      rw [runCascades] at h
      cases Except.ok.inj h
      exact absurd hp (List.not_mem_nil p)
  | cons t rest ih =>
      intro entries h p hp
      cases t with
      | mk tm tids =>
      rw [runCascades_cons_result] at h
      cases hrest : (runCascades env dryRun force rest).result with
      | error e => rw [hrest] at h; exact Except.noConfusion h
      | ok restEntries =>
          rw [hrest] at h
          simp only at h
          cases hs : (syncExcelData env tm
              { filePath := none, skipCascade := true, dryRun := dryRun,
                force := force }).result with
          | error e =>
              rw [hs] at h
              simp only at h
              cases Except.ok.inj h
              exact ih restEntries hrest p (by simpa using hp)
          | ok r0 =>
              rw [hs] at h
              simp only at h
              by_cases hsucc : r0.success = true
              · rw [if_pos hsucc] at h
                cases Except.ok.inj h
                rcases List.mem_append.mp hp with hhead | htail
                · rcases List.mem_singleton.mp hhead with rfl
                  exact ⟨r0, hs, hsucc, rfl⟩
                · exact ih restEntries hrest p htail
              · rw [if_neg hsucc] at h
                cases Except.ok.inj h
                exact ih restEntries hrest p (by simpa using hp)

theorem syncB_skip_result :
    (syncExcelData abcEnv "B"
      { filePath := none, skipCascade := true, dryRun := false,
        force := false }).result = .ok c3NestedBResult := by
  rw [sync_main_path abcEnv "B"
    { filePath := none, skipCascade := true, dryRun := false,
      force := false } recordsB (by decide) (by decide) rfl (by decide) rfl]
  rw [TraceM.result_pair]
  rw [syncMainPhase_result_eq, transformRecords_result]
  simp only [show (abcEnv.getModelFields "B").isEmpty = false from rfl,
    Bool.false_eq_true, if_false]
  rw [runBatches_result,
    cascadePhase_result_skip abcEnv "B"
      { filePath := none, skipCascade := true, dryRun := false,
        force := false } recordsB rfl]
  simp only
  exact congrArg Except.ok (by decide)

theorem runCascadesB_result :
    (runCascades abcEnv false false [("B", [5])]).result =
      .ok [("B", 1)] := by
  rw [runCascades_cons_result]
  have hrest : (runCascades abcEnv false false []).result = .ok [] := by
    rw [runCascades]; rfl
  rw [hrest]
  simp only
  rw [syncB_skip_result]
  simp only
  decide

/-- **C3**: on every `SyncResult` the sync call actually returns, `success`
is true exactly when `errors` is empty; swapping out the graph-edge upsert
collaborator and the index collaborator leaves the returned result
unchanged, so a graph-edge upsert failure or an index-creation failure is
never appended to `errors` and never flips `success`; disabling the
cascade leaves `success`, `errors` and all three counters unchanged (only
`cascaded_models` may differ), so cascade outcomes never affect them; and
the cascade list only ever holds targets whose nested sync returned
`success = true` with that sync's `records_synced` — a failed cascade
target is excluded. -/
theorem c3_success_and_advisory_failures (env : SyncEnv)
    (modelName : String) (options : SyncOptions) :
    (∀ r : SyncResult,
      (syncExcelData env modelName options).result = .ok r →
      r.success = r.errors.isEmpty) ∧
    (∀ (g : Edge → Except String Unit)
       (gi : String → List SchemaField → Nat),
      (syncExcelData
        { env with upsertRelationship := g, ensureModelIndexes := gi }
        modelName options).result =
        (syncExcelData env modelName options).result) ∧
    ((syncExcelData env modelName options).result.map resultCore =
      (syncExcelData env modelName
        { options with skipCascade := true }).result.map resultCore) ∧
    (∀ (targets : List (String × List Int)) (entries : List (String × Nat)),
      (runCascades env options.dryRun options.force targets).result =
        .ok entries →
      ∀ p ∈ entries, ∃ r : SyncResult,
        (syncExcelData env p.1
          { filePath := none, skipCascade := true, dryRun := options.dryRun,
            force := options.force }).result = .ok r ∧
        r.success = true ∧ p.2 = r.records_synced) :=
  ⟨fun r h => sync_success_iff_errors env modelName options r h,
   fun g gi => sync_result_congr_advisory
     { env with upsertRelationship := g, ensureModelIndexes := gi } env
     rfl rfl rfl rfl rfl rfl rfl rfl modelName options,
   sync_skipCascade_core env modelName options,
   fun targets entries h p hp =>
     runCascades_entries_ok env options.dryRun options.force targets
       entries h p hp⟩

/-- Witness for C3: a concrete dry-run sync of `A` returns a result with
`success = errors.isEmpty`; replacing the edge-upsert and index
collaborators with failing/trivial ones leaves the result unchanged; the
cascade-independent core is the same with and without cascade; and a
concrete cascade over target `B` records exactly the successful nested
sync of `B` with its synced count. -/
theorem c3_success_and_advisory_failures_witness :
    ((syncExcelData abcEnv "A" { dryRun := true }).result =
        .ok c3DryResult ∧
      c3DryResult.success = c3DryResult.errors.isEmpty) ∧
    ((syncExcelData
        { abcEnv with
            upsertRelationship := fun _ => Except.error "edge upsert failed"
            ensureModelIndexes := fun _ _ => 0 }
        "A" { dryRun := true }).result =
      (syncExcelData abcEnv "A" { dryRun := true }).result) ∧
    ((syncExcelData abcEnv "A" { dryRun := true }).result.map resultCore =
      (syncExcelData abcEnv "A"
        { skipCascade := true, dryRun := true }).result.map resultCore) ∧
    ((runCascades abcEnv false false [("B", [5])]).result =
        .ok [("B", 1)] ∧
      (syncExcelData abcEnv "B"
        { filePath := none, skipCascade := true, dryRun := false,
          force := false }).result = .ok c3NestedBResult ∧
      c3NestedBResult.success = true ∧
      (1 : Nat) = c3NestedBResult.records_synced) := by
  have hdry : (syncExcelData abcEnv "A" { dryRun := true }).result =
      .ok c3DryResult := by
    rw [sync_dry_run abcEnv "A" { dryRun := true } recordsA (by decide)
      (by decide) rfl (by decide) rfl]
    rfl
  have hc1 := (c3_success_and_advisory_failures abcEnv "A"
    { dryRun := true }).1 c3DryResult hdry
  have hc2 := (c3_success_and_advisory_failures abcEnv "A"
    { dryRun := true }).2.1
    (fun _ => Except.error "edge upsert failed") (fun _ _ => 0)
  have hc3 := (c3_success_and_advisory_failures abcEnv "A"
    { dryRun := true }).2.2.1
  have hc4 := (c3_success_and_advisory_failures abcEnv "A" {}).2.2.2
    [("B", [5])] [("B", 1)] runCascadesB_result ("B", 1)
    (List.mem_singleton.mpr rfl)
  rcases hc4 with ⟨r, hr, hsucc, hn⟩
  have hre : r = c3NestedBResult := Except.ok.inj (hr.symm.trans
    syncB_skip_result)
  subst hre
  exact ⟨⟨hdry, hc1⟩, hc2, hc3, runCascadesB_result, syncB_skip_result,
    hsucc, hn⟩
